import Mathlib

/-!
# Realtime presence-and-broadcast dispatcher of the chat backend

A shallow embedding of `src/socket/index.js` and `src/socket/messageHandlers.js`.

* Identifiers (user ids, connection ids, conversation ids, message ids, room
  names) are JavaScript strings and are modelled by `String`.
* A JavaScript `Map` / `Set` keeps insertion order and has unique keys /
  members; both are modelled by lists, with the operations written so that
  they behave like the JavaScript ones (`JsSet.add` does not insert twice,
  `JsMap.set` replaces in place).
* The persistence collaborator (mongoose models `Message` and `Conversation`)
  is modelled by two lists held in the server state.
* The transport (socket.io) is modelled by the list of live sockets and the
  room membership relation of its adapter; a handler returns the list of
  `emit` calls it performs, and `deliver` turns one call into the list of
  (connection id, event) receipts.
-/

namespace WaClone

/-! ## JavaScript `Set` and `Map` -/

/-- A JavaScript `Set` of strings, in insertion order. -/
abbrev JsSet := List String

/-- `set.add(x)`: appends `x` unless it is already a member. -/
def JsSet.add (s : JsSet) (x : String) : JsSet :=
  if x ∈ s then s else s ++ [x]

/-- `set.delete(x)`. -/
def JsSet.delete (s : JsSet) (x : String) : JsSet :=
  s.filter (fun y => y != x)

/-- `set.size`. -/
def JsSet.size (s : JsSet) : Nat := s.length

/-- A JavaScript `Map` from strings to sets of strings, in insertion order. -/
abbrev JsMap := List (String × JsSet)

/-- `map.has(k)`. -/
def JsMap.has (m : JsMap) (k : String) : Bool :=
  m.any (fun e => e.1 == k)

/-- `map.get(k)`; `none` stands for `undefined`. -/
def JsMap.get (m : JsMap) (k : String) : Option JsSet :=
  (m.find? (fun e => e.1 == k)).map (fun e => e.2)

/-- `map.set(k, v)`: replaces the value of an existing key in place, appends a
new entry otherwise. -/
def JsMap.set : JsMap → String → JsSet → JsMap
  | [], k, v => [(k, v)]
  | e :: m, k, v => if e.1 == k then (k, v) :: m else e :: JsMap.set m k v

/-- `map.delete(k)`. -/
def JsMap.delete (m : JsMap) (k : String) : JsMap :=
  m.filter (fun e => e.1 != k)

/-- `Array.from(map.keys())`. -/
def JsMap.keys (m : JsMap) : List String := m.map (fun e => e.1)

/-! ## Data model -/

/-- One entry of `message.reactions`. -/
structure Reaction where
  user : String
  emoji : String
  deriving DecidableEq, Repr

/-- A persisted `Message` document. -/
structure Message where
  id : String
  sender : String
  conversation : String
  text : String
  isEdited : Bool
  editedAt : Option Nat
  reactions : List Reaction
  seenBy : List String
  createdAt : Nat
  deriving DecidableEq, Repr

/-- A persisted `Conversation` document (the fields the handlers use). -/
structure Conversation where
  id : String
  participants : List String
  lastMessage : Option String
  deriving DecidableEq, Repr

/-- A live connection: `socket.id` and the `socket.userId` bound to it by the
authentication middleware. -/
structure Socket where
  id : String
  userId : String
  deriving DecidableEq, Repr

/-- The `message` field of a `new-message` payload: a stored document
(`send-message`) or the client-supplied value relayed as is
(`new-message-broadcast`). -/
inductive MessagePayload where
  | stored (m : Message)
  | relayed (raw : String)
  deriving DecidableEq, Repr

/-- Outbound events (server to client) with their payloads. -/
inductive Event where
  | updateOnlineUsers (ids : List String)
  | newMessage (message : MessagePayload) (conversationId : String)
  | messageUpdated (message : Message) (conversationId : String)
  | messageRemoved (messageId : String) (conversationId : String)
  | userTyping (userId : String) (conversationId : String)
  | userStoppedTyping (userId : String) (conversationId : String)
  | messagesSeen (conversationId : String) (seenBy : String) (messageIds : List String)
  | messageError (error : String)
  deriving DecidableEq, Repr

/-- The addressee of one `emit` call. -/
inductive Target where
  /-- The call `io.emit(...)`: every connected socket. -/
  | everyone
  /-- The call `io.to(room).emit(...)`: every socket in the room. -/
  | room (name : String)
  /-- The call `socket.emit(...)`: the socket the handler belongs to. -/
  | self
  /-- The call `socket.to(room).emit(...)`: every socket in the room except the
  handler's own. -/
  | roomExceptSelf (name : String)
  deriving DecidableEq, Repr

/-- One `emit` call performed by a handler. -/
structure Emit where
  target : Target
  event : Event
  deriving DecidableEq, Repr

/-- The state of the server process together with its collaborators. -/
structure Server where
  /-- The `onlineUsers` map of `setupSocket`. -/
  onlineUsers : JsMap
  /-- The sockets currently connected to the namespace. -/
  sockets : List Socket
  /-- Room membership kept by the transport adapter: pairs (room, socket id). -/
  rooms : List (String × String)
  /-- The `Message` collection. -/
  messages : List Message
  /-- The `Conversation` collection. -/
  conversations : List Conversation
  deriving DecidableEq, Repr

/-- The state at process start: nobody online, empty collections. -/
def Server.init : Server :=
  { onlineUsers := [], sockets := [], rooms := [], messages := [], conversations := [] }

/-! ## Transport -/

/-- Whether the socket with id `sid` is in room `name`. -/
def Server.inRoom (s : Server) (name sid : String) : Bool :=
  s.rooms.contains (name, sid)

/-- The receipts of one `emit` call made by the handler of socket `origin`:
which connection gets which event. -/
def deliver (s : Server) (origin : String) (e : Emit) : List (String × Event) :=
  match e.target with
  | Target.everyone => s.sockets.map (fun k => (k.id, e.event))
  | Target.room name =>
      (s.sockets.filter (fun k => s.inRoom name k.id)).map (fun k => (k.id, e.event))
  | Target.self =>
      (s.sockets.filter (fun k => k.id == origin)).map (fun k => (k.id, e.event))
  | Target.roomExceptSelf name =>
      (s.sockets.filter (fun k => s.inRoom name k.id && k.id != origin)).map
        (fun k => (k.id, e.event))

/-- All receipts of a list of `emit` calls, in order. -/
def deliverAll (s : Server) (origin : String) (es : List Emit) : List (String × Event) :=
  es.flatMap (deliver s origin)

/-! ## Presence registry (`src/socket/index.js`) -/

/-- The registration performed by the `connection` handler:
`if (!onlineUsers.has(userId)) onlineUsers.set(userId, new Set());`
`onlineUsers.get(userId).add(socket.id);` -/
def register (m : JsMap) (userId sid : String) : JsMap :=
  let m1 := if !m.has userId then m.set userId [] else m
  match m1.get userId with
  | some sockets => m1.set userId (sockets.add sid)
  | none => m1

/-- The body of the `disconnect` handler on the map:
`const sockets = onlineUsers.get(userId); if (sockets) { sockets.delete(socket.id);`
`if (sockets.size === 0) onlineUsers.delete(userId); }` -/
def unregister (m : JsMap) (userId sid : String) : JsMap :=
  match m.get userId with
  | some sockets =>
      let sockets1 := sockets.delete sid
      let m1 := m.set userId sockets1
      if sockets1.size == 0 then m1.delete userId else m1
  | none => m

/-- The `connection` event for an authenticated socket: the transport adds the
socket to the namespace and to the room named by its own id, then the handler
registers it and emits the list of online user ids to everyone. -/
def onConnection (s : Server) (k : Socket) : Server × List Emit :=
  let s1 : Server :=
    { s with sockets := s.sockets ++ [k], rooms := s.rooms ++ [(k.id, k.id)] }
  let s2 : Server := { s1 with onlineUsers := register s1.onlineUsers k.userId k.id }
  (s2, [⟨Target.everyone, Event.updateOnlineUsers s2.onlineUsers.keys⟩])

/-- The `disconnect` event of socket `k`: the transport has removed the socket
from the namespace and from all its rooms, then the handler unregisters it and
emits the list of online user ids to everyone. -/
def onDisconnect (s : Server) (k : Socket) : Server × List Emit :=
  let s1 : Server :=
    { s with sockets := s.sockets.filter (fun j => j.id != k.id),
             rooms := s.rooms.filter (fun r => r.2 != k.id) }
  let s2 : Server := { s1 with onlineUsers := unregister s1.onlineUsers k.userId k.id }
  (s2, [⟨Target.everyone, Event.updateOnlineUsers s2.onlineUsers.keys⟩])

/-- `getUserSockets`: `onlineUsers.get(userId) || new Set()`. -/
def getUserSockets (s : Server) (userId : String) : JsSet :=
  (s.onlineUsers.get userId).getD []

/-- Connection lifecycle events. -/
inductive ConnEvent where
  | connection (k : Socket)
  | disconnect (k : Socket)
  deriving DecidableEq, Repr

/-- The state after one lifecycle event. -/
def ConnEvent.apply (s : Server) : ConnEvent → Server
  | ConnEvent.connection k => (onConnection s k).1
  | ConnEvent.disconnect k => (onDisconnect s k).1

/-- The state after a sequence of lifecycle events. -/
def runConn (s : Server) : List ConnEvent → Server
  | [] => s
  | e :: es => runConn (e.apply s) es

/-- A sequence of lifecycle events the transport can produce from state `s`:
a new connection carries an id no open connection has, and only a currently
open connection disconnects. -/
def validConn (s : Server) : List ConnEvent → Bool
  | [] => true
  | ConnEvent.connection k :: es =>
      !(s.sockets.any (fun j => j.id == k.id)) &&
        validConn ((ConnEvent.connection k).apply s) es
  | ConnEvent.disconnect k :: es =>
      s.sockets.contains k && validConn ((ConnEvent.disconnect k).apply s) es

/-- The presence invariant: connection ids are unique among the open sockets,
every stored set is non-empty and holds exactly the ids of the open sockets of
its user, and a user without an entry has no open socket. -/
structure PresenceInv (s : Server) : Prop where
  ids_nodup : (s.sockets.map Socket.id).Nodup
  entry : ∀ u set, s.onlineUsers.get u = some set →
    set ≠ [] ∧ ∀ sid, sid ∈ set ↔ (⟨sid, u⟩ : Socket) ∈ s.sockets
  absent : ∀ u, s.onlineUsers.get u = none → ∀ k ∈ s.sockets, k.userId ≠ u

/-! ## Persistence collaborator (mongoose models) -/

/-- `Conversation.findById(id)` for an id that casts to an ObjectId; `none`
stands for `null`. Ids are kept in canonical form, so the lookup is string
equality. -/
def Conversation.findById (s : Server) (id : String) : Option Conversation :=
  s.conversations.find? (fun c => c.id == id)

/-- `conversation.save()` after `conversation.lastMessage = messageId`: the
modified path is written to the stored document of that id. -/
def Conversation.saveLastMessage (s : Server) (c : Conversation) (messageId : String) :
    Server :=
  let conversations1 := s.conversations.map
    (fun d => if d.id == c.id then { d with lastMessage := some messageId } else d)
  { s with conversations := conversations1 }

/-- `Message.findById(id)`; `none` stands for `null`. -/
def Message.findById (s : Server) (id : String) : Option Message :=
  s.messages.find? (fun m => m.id == id)

/-- Modelled from the spec: the `Message` schema (`models/Message.js`, not among
the sources) as used by `Message.create(...)` in the send-message handler.
The spec says a sent message is persisted "with empty reaction/seen sets"; the
edited flag starts false and the creation timestamp is the time of the call.
`newId` is the ObjectId generated for the document. -/
def Message.create (s : Server) (newId : String) (now : Nat)
    (sender conversation text : String) : Server × Message :=
  let m : Message :=
    { id := newId, sender := sender, conversation := conversation, text := text,
      isEdited := false, editedAt := none, reactions := [], seenBy := [], createdAt := now }
  ({ s with messages := s.messages ++ [m] }, m)

/-- `message.save()` of a document loaded by `findById` and then modified. -/
def Message.save (s : Server) (m : Message) : Server :=
  { s with messages := s.messages.map (fun x => if x.id == m.id then m else x) }

/-- `Message.findByIdAndDelete(id)`: removes the document with that id. -/
def Message.findByIdAndDelete (s : Server) (id : String) : Server :=
  { s with messages := s.messages.eraseP (fun m => m.id == id) }

/-- The filter of the `updateMany` call of mark-messages-seen:
`conversation: conversationId, sender: $ne userId, seenBy: $ne userId`. -/
def unseenByOther (conversationId userId : String) (m : Message) : Bool :=
  m.conversation == conversationId && m.sender != userId && !(m.seenBy.contains userId)

/-- The update operator `$addToSet: seenBy: userId`. -/
def addToSet (xs : List String) (x : String) : List String :=
  if xs.contains x then xs else xs ++ [x]

/-- `Message.updateMany(filter, $addToSet ...)` of mark-messages-seen: the new
state and `result.modifiedCount`. -/
def Message.updateManySeen (s : Server) (conversationId userId : String) : Server × Nat :=
  let messages1 := s.messages.map (fun m =>
    if unseenByOther conversationId userId m then
      { m with seenBy := addToSet m.seenBy userId }
    else m)
  let modified := s.messages.filter (fun m =>
    unseenByOther conversationId userId m && !(addToSet m.seenBy userId == m.seenBy))
  ({ s with messages := messages1 }, modified.length)

/-- `Message.find(conversation: conversationId, seenBy: userId)`
`.sort(createdAt: -1).limit(50)`: the (at most) fifty newest messages of the
conversation whose `seenBy` contains the user. -/
def Message.findSeen (s : Server) (conversationId userId : String) : List Message :=
  ((s.messages.filter (fun m => m.conversation == conversationId && m.seenBy.contains userId)
    ).insertionSort (fun a b => a.createdAt ≥ b.createdAt)).take 50

/-! ## JavaScript values -/

/-- Truthiness of an optional string: `undefined` and the empty string are
falsy. -/
def jsTruthy : Option String → Bool
  | none => false
  | some t => t != ""

/-- The code points `String.prototype.trim` strips: ECMAScript WhiteSpace and
LineTerminator. -/
def isJsWhitespace (c : Char) : Bool :=
  [0x9, 0xA, 0xB, 0xC, 0xD, 0x20, 0xA0, 0x1680, 0x2000, 0x2001, 0x2002, 0x2003, 0x2004,
    0x2005, 0x2006, 0x2007, 0x2008, 0x2009, 0x200A, 0x2028, 0x2029, 0x202F, 0x205F, 0x3000,
    0xFEFF].contains c.toNat

/-- `text.trim()`. -/
def jsTrim (t : String) : String :=
  String.mk (((t.toList.dropWhile isJsWhitespace).reverse.dropWhile isJsWhitespace).reverse)

/-! ## Message handlers (`src/socket/messageHandlers.js`)

Every handler takes `isValidObjectId` (the function
`mongoose.Types.ObjectId.isValid`, which is not part of the sources), the
state, the socket it was registered for and the event payload, and returns the
new state and the `emit` calls it made. A `throw` inside `try` is modelled by
the value the `catch` block produces. -/

/-- The `catch` block shared by the lifecycle handlers:
`socket.emit("message-error", error: error.message)`. -/
def reportError (s : Server) (error : String) : Server × List Emit :=
  (s, [⟨Target.self, Event.messageError error⟩])

/-- `checkParticipation(conversationId, userId)` for a conversation id that
casts to an ObjectId. -/
def checkParticipation (s : Server) (conversationId userId : String) :
    Except String Conversation :=
  match Conversation.findById s conversationId with
  | none => Except.error "Conversation not found"
  | some conversation =>
      if conversation.participants.any (fun p => p == userId) then
        Except.ok conversation
      else
        Except.error "You are not a participant of this conversation"

/-- The message of the `CastError` mongoose throws from `findById` when the id
does not cast to an ObjectId. -/
def castErrorMessage (value : String) : String :=
  "Cast to ObjectId failed for value \"" ++ value ++
    "\" (type string) at path \"_id\" for model \"Conversation\""

/-- `checkParticipation(conversationId, userId)` called with a client-supplied
string that was not validated before: `Conversation.findById` rejects with a
`CastError` when the string does not cast to an ObjectId (the cast accepts what
`isValidObjectId` accepts). -/
def checkParticipationRaw (isValidObjectId : String → Bool) (s : Server)
    (conversationId userId : String) : Except String Conversation :=
  if isValidObjectId conversationId then checkParticipation s conversationId userId
  else Except.error (castErrorMessage conversationId)

/-- The loop `conversation.participants.forEach(p => getUserSockets(p).forEach(`
`socketId => io.to(socketId).emit(event)))`. -/
def emitToParticipants (s : Server) (conversation : Conversation) (event : Event) :
    List Emit :=
  conversation.participants.flatMap
    (fun p => (getUserSockets s p).map (fun socketId => ⟨Target.room socketId, event⟩))

/-- The `TypeError` raised by `conversation.participants` when the second
`Conversation.findById` of a handler returns `null`. -/
def nullParticipantsMessage : String :=
  "Cannot read properties of null (reading participants)"

/-- The `new-message-broadcast` handler. Its `catch` block only logs. -/
def newMessageBroadcast (isValidObjectId : String → Bool) (s : Server) (socket : Socket)
    (message conversationId : Option String) : Server × List Emit :=
  if !jsTruthy message || !jsTruthy conversationId then (s, [])
  else
    let cid := conversationId.getD ""
    match checkParticipationRaw isValidObjectId s cid socket.userId with
    | Except.error _ => (s, [])
    | Except.ok _ =>
        (s, [⟨Target.roomExceptSelf cid,
              Event.newMessage (MessagePayload.relayed (message.getD "")) cid⟩])

/-- The `send-message` handler. `newId` and `now` are the ObjectId and the
timestamp given to the created document. -/
def sendMessage (isValidObjectId : String → Bool) (newId : String) (now : Nat) (s : Server)
    (socket : Socket) (conversationId text : Option String) : Server × List Emit :=
  if !jsTruthy conversationId || !jsTruthy (text.map jsTrim) then
    reportError s "Invalid message data"
  else
    let cid := conversationId.getD ""
    if !isValidObjectId cid then reportError s "Invalid conversation ID"
    else
      match checkParticipation s cid socket.userId with
      | Except.error e => reportError s e
      | Except.ok conversation =>
          let (s1, newMessage) :=
            Message.create s newId now socket.userId cid (jsTrim (text.getD ""))
          let s2 := Conversation.saveLastMessage s1 conversation newMessage.id
          let messageData := Event.newMessage (MessagePayload.stored newMessage) cid
          (s2, ⟨Target.room cid, messageData⟩ ::
            (getUserSockets s2 socket.userId).map
              (fun socketId => ⟨Target.room socketId, messageData⟩))

/-- The `message-edited` handler. `now` is the value of `new Date()`. -/
def messageEdited (isValidObjectId : String → Bool) (now : Nat) (s : Server)
    (socket : Socket) (messageId newText : String) : Server × List Emit :=
  if !isValidObjectId messageId then reportError s "Invalid message ID"
  else
    match Message.findById s messageId with
    | none => reportError s "Message not found"
    | some message =>
        match checkParticipation s message.conversation socket.userId with
        | Except.error e => reportError s e
        | Except.ok _ =>
            if message.sender != socket.userId then
              reportError s "Not authorized to edit this message"
            else
              let message1 : Message :=
                { message with text := newText, isEdited := true, editedAt := some now }
              let s1 := Message.save s message1
              match Conversation.findById s1 message.conversation with
              | none => reportError s1 nullParticipantsMessage
              | some conversation =>
                  (s1, emitToParticipants s1 conversation
                    (Event.messageUpdated message1 message.conversation))

/-- The `message-deleted` handler. -/
def messageDeleted (isValidObjectId : String → Bool) (s : Server) (socket : Socket)
    (messageId deleteType : String) : Server × List Emit :=
  if !isValidObjectId messageId then reportError s "Invalid message ID"
  else
    match Message.findById s messageId with
    | none => reportError s "Message not found"
    | some message =>
        match checkParticipation s message.conversation socket.userId with
        | Except.error e => reportError s e
        | Except.ok _ =>
            let conversation := Conversation.findById s message.conversation
            if deleteType == "everyone" || deleteType == "forEveryone" then
              if message.sender != socket.userId then
                reportError s "Only sender can delete for everyone"
              else
                let s1 := Message.findByIdAndDelete s messageId
                match conversation with
                | none => reportError s1 nullParticipantsMessage
                | some conversation =>
                    (s1, emitToParticipants s1 conversation
                      (Event.messageRemoved messageId message.conversation))
            else (s, [])

/-- The toggle of the `message-reaction` handler on `message.reactions`. -/
def toggleReaction (reactions : List Reaction) (userId emoji : String) : List Reaction :=
  let existingReaction := reactions.find? (fun r => r.user == userId && r.emoji == emoji)
  if existingReaction.isSome then
    reactions.filter (fun r => !(r.user == userId && r.emoji == emoji))
  else
    reactions ++ [⟨userId, emoji⟩]

/-- The `message-reaction` handler. -/
def messageReaction (isValidObjectId : String → Bool) (s : Server) (socket : Socket)
    (messageId emoji : String) : Server × List Emit :=
  let userId := socket.userId
  if !isValidObjectId messageId then reportError s "Invalid message ID format"
  else
    match Message.findById s messageId with
    | none => reportError s "Message not found"
    | some message =>
        match checkParticipation s message.conversation userId with
        | Except.error e => reportError s e
        | Except.ok _ =>
            let message1 : Message :=
              { message with reactions := toggleReaction message.reactions userId emoji }
            let s1 := Message.save s message1
            match Conversation.findById s1 message.conversation with
            | none => reportError s1 nullParticipantsMessage
            | some conversation =>
                (s1, emitToParticipants s1 conversation
                  (Event.messageUpdated message1 message.conversation))

/-- The loop of the typing handlers: every participant other than the
requester, every registered socket of that participant. -/
def emitToOtherParticipants (s : Server) (conversation : Conversation) (userId : String)
    (event : Event) : List Emit :=
  conversation.participants.flatMap
    (fun p =>
      if p != userId then
        (getUserSockets s p).map (fun socketId => ⟨Target.room socketId, event⟩)
      else [])

/-- The `typing-started` handler. Its `catch` block only logs. -/
def typingStarted (isValidObjectId : String → Bool) (s : Server) (socket : Socket)
    (conversationId : String) : Server × List Emit :=
  if !isValidObjectId conversationId then (s, [])
  else
    match checkParticipation s conversationId socket.userId with
    | Except.error _ => (s, [])
    | Except.ok conversation =>
        (s, emitToOtherParticipants s conversation socket.userId
          (Event.userTyping socket.userId conversationId))

/-- The `typing-stopped` handler. Its `catch` block only logs. -/
def typingStopped (isValidObjectId : String → Bool) (s : Server) (socket : Socket)
    (conversationId : String) : Server × List Emit :=
  if !isValidObjectId conversationId then (s, [])
  else
    match checkParticipation s conversationId socket.userId with
    | Except.error _ => (s, [])
    | Except.ok conversation =>
        (s, emitToOtherParticipants s conversation socket.userId
          (Event.userStoppedTyping socket.userId conversationId))

/-- The call `socket.join(room)`. -/
def socketJoin (s : Server) (socket : Socket) (room : String) : Server :=
  if s.inRoom room socket.id then s else { s with rooms := s.rooms ++ [(room, socket.id)] }

/-- The call `socket.leave(room)`. -/
def socketLeave (s : Server) (socket : Socket) (room : String) : Server :=
  { s with rooms := s.rooms.filter (fun r => r != (room, socket.id)) }

/-- The `join-conversation` handler. -/
def joinConversation (isValidObjectId : String → Bool) (s : Server) (socket : Socket)
    (conversationId : String) : Server × List Emit :=
  match checkParticipationRaw isValidObjectId s conversationId socket.userId with
  | Except.error e => reportError s e
  | Except.ok _ => (socketJoin s socket conversationId, [])

/-- The `leave-conversation` handler. -/
def leaveConversation (s : Server) (socket : Socket) (conversationId : String) :
    Server × List Emit :=
  (socketLeave s socket conversationId, [])

/-- The `mark-messages-seen` handler. -/
def markMessagesSeen (isValidObjectId : String → Bool) (s : Server) (socket : Socket)
    (conversationId : String) : Server × List Emit :=
  let userId := socket.userId
  if !isValidObjectId conversationId then reportError s "Invalid conversation ID"
  else
    match checkParticipation s conversationId userId with
    | Except.error e => reportError s e
    | Except.ok conversation =>
        let (s1, modifiedCount) := Message.updateManySeen s conversationId userId
        if modifiedCount > 0 then
          let updatedMessages := Message.findSeen s1 conversationId userId
          (s1, emitToParticipants s1 conversation
            (Event.messagesSeen conversationId userId (updatedMessages.map Message.id)))
        else (s1, [])

/-! ## Transport invariants and example states -/

/-- The private rooms of socket.io: among the open sockets, the room named by a
socket id holds that socket and no other. It holds after connection and
disconnect events; a socket that sends leave-conversation with its own id
breaks it, so no statement about reachable states assumes it. -/
def PrivateRooms (s : Server) : Prop :=
  ∀ j ∈ s.sockets, ∀ k ∈ s.sockets, s.inRoom k.id j.id = true ↔ j.id = k.id

/-- A running server: alice is connected from two devices (`a1`, `a2`), bob
from one (`b1`); alice and bob are the two participants of one conversation.
Only `a1` has joined the room of the conversation. -/
def exampleServer : Server :=
  { onlineUsers := [("alice", ["a1", "a2"]), ("bob", ["b1"])],
    sockets := [⟨"a1", "alice"⟩, ⟨"a2", "alice"⟩, ⟨"b1", "bob"⟩],
    rooms := [("a1", "a1"), ("a2", "a2"), ("b1", "b1"),
      ("65f0000000000000000000c1", "a1")],
    messages := [],
    conversations := [⟨"65f0000000000000000000c1", ["alice", "bob"], none⟩] }

/-- The example server after alice has sent "hello" in the conversation. -/
def chatServer : Server :=
  { exampleServer with
    messages := [⟨"65f0000000000000000000a1", "alice", "65f0000000000000000000c1", "hello",
      false, none, [], [], 1⟩],
    conversations :=
      [⟨"65f0000000000000000000c1", ["alice", "bob"], some "65f0000000000000000000a1"⟩] }

/-- The state of `chatServer` after alice has been removed from the
conversation: her message is still stored, she is no longer a participant. -/
def formerMemberServer : Server :=
  { chatServer with
    conversations :=
      [⟨"65f0000000000000000000c1", ["bob", "carol"], some "65f0000000000000000000a1"⟩] }

/-- The state of `chatServer` after bob has seen the first message and alice
has sent a second one. -/
def secondMessageServer : Server :=
  { chatServer with
    messages :=
      [⟨"65f0000000000000000000a1", "alice", "65f0000000000000000000c1", "hello", false,
          none, [], ["bob"], 1⟩,
        ⟨"65f0000000000000000000a2", "alice", "65f0000000000000000000c1", "again", false,
          none, [], [], 2⟩],
    conversations :=
      [⟨"65f0000000000000000000c1", ["alice", "bob"], some "65f0000000000000000000a2"⟩] }

/-! ## Inbound events -/

/-- The inbound events (client to server) handled by `registerMessageHandlers`,
with their payloads. -/
inductive Inbound where
  | joinConversation (conversationId : String)
  | leaveConversation (conversationId : String)
  | sendMessage (conversationId text : Option String)
  | newMessageBroadcast (message conversationId : Option String)
  | messageEdited (messageId newText : String)
  | messageDeleted (messageId deleteType : String)
  | messageReaction (messageId emoji : String)
  | typingStarted (conversationId : String)
  | typingStopped (conversationId : String)
  | markMessagesSeen (conversationId : String)
  deriving DecidableEq, Repr

/-- The handler registered by `socket.on` for each inbound event. -/
def handle (isValidObjectId : String → Bool) (newId : String) (now : Nat) (s : Server)
    (socket : Socket) : Inbound → Server × List Emit
  | Inbound.joinConversation cid => joinConversation isValidObjectId s socket cid
  | Inbound.leaveConversation cid => leaveConversation s socket cid
  | Inbound.sendMessage cid text => sendMessage isValidObjectId newId now s socket cid text
  | Inbound.newMessageBroadcast message cid =>
      newMessageBroadcast isValidObjectId s socket message cid
  | Inbound.messageEdited mid newText => messageEdited isValidObjectId now s socket mid newText
  | Inbound.messageDeleted mid deleteType =>
      messageDeleted isValidObjectId s socket mid deleteType
  | Inbound.messageReaction mid emoji => messageReaction isValidObjectId s socket mid emoji
  | Inbound.typingStarted cid => typingStarted isValidObjectId s socket cid
  | Inbound.typingStopped cid => typingStopped isValidObjectId s socket cid
  | Inbound.markMessagesSeen cid => markMessagesSeen isValidObjectId s socket cid

/-- The handlers whose `catch` block only logs: the typing signals and
`new-message-broadcast`. -/
def Inbound.logsOnly : Inbound → Bool
  | Inbound.newMessageBroadcast _ _ => true
  | Inbound.typingStarted _ => true
  | Inbound.typingStopped _ => true
  | _ => false

/-- The conversation is not found or the user is not one of its participants. -/
def participationFails (s : Server) (conversationId userId : String) : Bool :=
  match Conversation.findById s conversationId with
  | none => true
  | some conversation => !(conversation.participants.contains userId)

/-- The failures of the error-reporting rule, as the specification words them:
the conversation or the message of the event is not found, the requester is
not a participant, or the requester is not the sender where the operation
(edit, delete for everyone) is reserved to the sender. -/
def authFailure (s : Server) (userId : String) : Inbound → Bool
  | Inbound.joinConversation cid => participationFails s cid userId
  | Inbound.leaveConversation _ => false
  | Inbound.sendMessage cid _ => participationFails s (cid.getD "") userId
  | Inbound.newMessageBroadcast _ cid => participationFails s (cid.getD "") userId
  | Inbound.messageEdited mid _ =>
      match Message.findById s mid with
      | none => true
      | some m => participationFails s m.conversation userId || m.sender != userId
  | Inbound.messageDeleted mid deleteType =>
      match Message.findById s mid with
      | none => true
      | some m =>
          participationFails s m.conversation userId ||
            ((deleteType == "everyone" || deleteType == "forEveryone") && m.sender != userId)
  | Inbound.messageReaction mid _ =>
      match Message.findById s mid with
      | none => true
      | some m => participationFails s m.conversation userId
  | Inbound.typingStarted cid => participationFails s cid userId
  | Inbound.typingStopped cid => participationFails s cid userId
  | Inbound.markMessagesSeen cid => participationFails s cid userId

/-! ## Connection authenticator (`io.use` middleware of `src/socket/index.js`) -/

/-- The parts of `socket.handshake` the middleware reads: `headers.cookie` and
`auth?.token`; `none` stands for `undefined`. -/
structure Handshake where
  cookie : Option String
  authToken : Option String
  deriving DecidableEq, Repr

/-- A call the middleware makes to a collaborator. -/
inductive AuthCall where
  /-- The call `jwt.verify(token, process.env.JWT_SECRET)`. -/
  | verify (token : String)
  /-- The call `User.findById(id).select(...)`. -/
  | findUser (id : String)
  deriving DecidableEq, Repr

/-- What the middleware hands to `next`: an error message, or nothing, in which
case `socket.userId` and `socket.userInfo` have been set. -/
inductive AuthOutcome where
  | rejected (error : String)
  | accepted (userId : String) (userInfo : Option String)
  deriving DecidableEq, Repr

/-- The lines `const cookies = socket.handshake.headers.cookie;`
`if (cookies) token = cookie.parse(cookies)?.token`: the value of the `token`
cookie. `cookieParse header key` is the property `key` of the object
`cookie.parse(header)` (the `cookie` package is not part of the sources). -/
def cookieToken (cookieParse : String → String → Option String) (h : Handshake) :
    Option String :=
  if jsTruthy h.cookie then cookieParse (h.cookie.getD "") "token" else none

/-- The `io.use` middleware: the collaborator calls it makes, in order, and
what it hands to `next`. `jwtVerify token` is `none` when `jwt.verify` throws
and `some id` with `id` the value of `decoded?.id` otherwise; `findUser id` is
`none` when the lookup throws and `some info` otherwise. -/
def socketAuth (cookieParse : String → String → Option String)
    (jwtVerify : String → Option (Option String))
    (findUser : String → Option (Option String)) (h : Handshake) :
    List AuthCall × AuthOutcome :=
  let token := cookieToken cookieParse h
  let token := if !jsTruthy token then h.authToken else token
  if !jsTruthy token then ([], AuthOutcome.rejected "No token provided")
  else
    let t := token.getD ""
    match jwtVerify t with
    | none => ([AuthCall.verify t], AuthOutcome.rejected "Authentication error")
    | some decodedId =>
        if !jsTruthy decodedId then
          ([AuthCall.verify t], AuthOutcome.rejected "Invalid token")
        else
          let id := decodedId.getD ""
          match findUser id with
          | none =>
              ([AuthCall.verify t, AuthCall.findUser id],
                AuthOutcome.rejected "Authentication error")
          | some userInfo =>
              ([AuthCall.verify t, AuthCall.findUser id], AuthOutcome.accepted id userInfo)

/-- A cookie parser for the examples: it knows the header `token=abc`. -/
def exampleCookieParse (header key : String) : Option String :=
  if header == "token=abc" && key == "token" then some "abc" else none

/-- A verifier for the examples: the token `abc` decodes to the id `alice`, the
token `xyz` to the id `bob`, anything else is refused. -/
def exampleJwtVerify (token : String) : Option (Option String) :=
  if token == "abc" then some (some "alice")
  else if token == "xyz" then some (some "bob")
  else none

/-- A user lookup for the examples: every id resolves to a profile. -/
def exampleFindUser (id : String) : Option (Option String) :=
  some (some ("profile of " ++ id))

/-- The state of `chatServer` after bob has reacted with "+1" to the message of
alice. -/
def reactedServer : Server :=
  { chatServer with
    messages := [⟨"65f0000000000000000000a1", "alice", "65f0000000000000000000c1", "hello",
      false, none, [⟨"bob", "+1"⟩], [], 1⟩] }

/-! ## The running server -/

/-- What can happen to the running server: a connection is accepted, a
connection closes, an open connection sends an inbound event, or the
persistence collaborator (the HTTP controllers) rewrites the collections. -/
inductive ServerEvent where
  | connection (k : Socket)
  | disconnect (k : Socket)
  | inbound (k : Socket) (newId : String) (now : Nat) (ev : Inbound)
  | store (messages : List Message) (conversations : List Conversation)
  deriving DecidableEq, Repr

/-- The state after one event. -/
def ServerEvent.apply (isValidObjectId : String → Bool) (s : Server) : ServerEvent → Server
  | ServerEvent.connection k => (onConnection s k).1
  | ServerEvent.disconnect k => (onDisconnect s k).1
  | ServerEvent.inbound k newId now ev => (handle isValidObjectId newId now s k ev).1
  | ServerEvent.store messages conversations =>
      { s with messages := messages, conversations := conversations }

/-- Whether the transport can produce the event in state `s`: a new connection
gets an id that no open connection has and that is not an ObjectId (socket.io
ids are 20 characters, ObjectIds 24 hexadecimal digits); only an open
connection disconnects or sends an event. -/
def ServerEvent.possible (isValidObjectId : String → Bool) (s : Server) : ServerEvent → Bool
  | ServerEvent.connection k =>
      !(s.sockets.any (fun j => j.id == k.id)) && !(isValidObjectId k.id)
  | ServerEvent.disconnect k => s.sockets.contains k
  | ServerEvent.inbound k _ _ _ => s.sockets.contains k
  | ServerEvent.store _ _ => true

/-- The state after a sequence of events. -/
def runEvents (isValidObjectId : String → Bool) (s : Server) : List ServerEvent → Server
  | [] => s
  | e :: es => runEvents isValidObjectId (e.apply isValidObjectId s) es

/-- Whether every event of the sequence is possible when it happens. -/
def possibleRun (isValidObjectId : String → Bool) (s : Server) : List ServerEvent → Bool
  | [] => true
  | e :: es =>
      e.possible isValidObjectId s &&
        possibleRun isValidObjectId (e.apply isValidObjectId s) es

/-- A state the running server can be in: reached from process start by a
sequence of possible events. -/
def Reachable (isValidObjectId : String → Bool) (s : Server) : Prop :=
  ∃ evs, possibleRun isValidObjectId Server.init evs = true ∧
    runEvents isValidObjectId Server.init evs = s

/-- What holds of the transport state in every reachable state: the registry is
consistent with the open sockets, its sets have no duplicates, no socket id is
an ObjectId, and every room is named by the id of its member or by an
ObjectId. -/
structure TransportInv (isValidObjectId : String → Bool) (s : Server) : Prop where
  presence : PresenceInv s
  sets_nodup : ∀ u, (getUserSockets s u).Nodup
  socket_ids : ∀ k ∈ s.sockets, isValidObjectId k.id = false
  room_names : ∀ r ∈ s.rooms, r.1 = r.2 ∨ isValidObjectId r.1 = true

/-- The events that lead to `exampleServer`: the conversation of alice and bob
is created, `a1`, `a2` and `b1` connect, and `a1` joins the conversation. -/
def exampleTrace : List ServerEvent :=
  [ServerEvent.store [] [⟨"65f0000000000000000000c1", ["alice", "bob"], none⟩],
    ServerEvent.connection ⟨"a1", "alice"⟩, ServerEvent.connection ⟨"a2", "alice"⟩,
    ServerEvent.connection ⟨"b1", "bob"⟩,
    ServerEvent.inbound ⟨"a1", "alice"⟩ "" 0
      (Inbound.joinConversation "65f0000000000000000000c1")]

/-- The events of `exampleTrace` followed by `b1` sending leave-conversation
with its own socket id and `a2` doing the same. -/
def ownRoomLeftTrace : List ServerEvent :=
  exampleTrace ++
    [ServerEvent.inbound ⟨"b1", "bob"⟩ "" 0 (Inbound.leaveConversation "b1"),
      ServerEvent.inbound ⟨"a2", "alice"⟩ "" 0 (Inbound.leaveConversation "a2")]

/-- The state `exampleServer` after `b1` and `a2` have left the rooms named by
their own socket ids. -/
def ownRoomLeftServer : Server :=
  { exampleServer with
    rooms := [("a1", "a1"), ("65f0000000000000000000c1", "a1")] }

/-! ## Theorems -/


theorem JsSet.mem_add (s : JsSet) (x y : String) : y ∈ s.add x ↔ y ∈ s ∨ y = x := by
  unfold JsSet.add
  split
  · constructor
    · intro h; exact Or.inl h
    · rintro (h | rfl)
      · exact h
      · assumption
  · simp

theorem JsSet.mem_delete (s : JsSet) (x y : String) : y ∈ s.delete x ↔ y ∈ s ∧ y ≠ x := by
  simp [JsSet.delete]

theorem JsMap.get_set_self (m : JsMap) (k : String) (v : JsSet) :
    (m.set k v).get k = some v := by
  induction m with
  | nil => simp [JsMap.set, JsMap.get]
  | cons e m ih =>
    unfold JsMap.set
    split
    · simp [JsMap.get]
    · rename_i h
      have h1 : (e.1 == k) = false := by simpa using h
      simp only [JsMap.get, List.find?_cons, h1] at ih ⊢
      exact ih

theorem JsMap.get_set_ne (m : JsMap) (k k' : String) (v : JsSet) (hne : k' ≠ k) :
    (m.set k v).get k' = m.get k' := by
  induction m with
  | nil =>
    have : ¬ (k = k') := fun h => hne h.symm
    simp [JsMap.set, JsMap.get, this]
  | cons e m ih =>
    unfold JsMap.set
    split
    · rename_i h
      have h1 : e.1 = k := by simpa using h
      have h2 : ¬ (k = k') := fun h => hne h.symm
      have h3 : ¬ (e.1 = k') := by rw [h1]; exact h2
      simp [JsMap.get, List.find?_cons, h2, h3]
    · simp only [JsMap.get, List.find?_cons] at ih ⊢
      split
      · rfl
      · exact ih

theorem JsMap.get_delete_self (m : JsMap) (k : String) : (m.delete k).get k = none := by
  simp [JsMap.delete, JsMap.get, List.find?_eq_none]

theorem JsMap.get_delete_ne (m : JsMap) (k k' : String) (hne : k' ≠ k) :
    (m.delete k).get k' = m.get k' := by
  induction m with
  | nil => rfl
  | cons e m ih =>
    simp only [JsMap.delete, JsMap.get] at ih ⊢
    by_cases h : e.1 = k
    · have h3 : (e.1 == k') = false := by
        rw [h]; simpa using fun h => hne h.symm
      have h4 : (e.1 != k) = false := by simp [h]
      simp only [List.filter_cons, h4, List.find?_cons, h3]
      exact ih
    · have h4 : (e.1 != k) = true := by simp [h]
      simp only [List.filter_cons, h4, if_true, List.find?_cons]
      split
      · rfl
      · exact ih

theorem JsMap.has_iff (m : JsMap) (k : String) : m.has k = true ↔ m.get k ≠ none := by
  simp [JsMap.has, JsMap.get, List.find?_eq_none]

theorem JsMap.mem_keys_iff (m : JsMap) (k : String) : k ∈ m.keys ↔ m.get k ≠ none := by
  simp [JsMap.keys, JsMap.get, List.find?_eq_none]



theorem register_get_self (m : JsMap) (u sid : String) :
    (register m u sid).get u = some (((m.get u).getD []).add sid) := by
  unfold register
  by_cases h : m.has u = true
  · have hg : m.get u ≠ none := (JsMap.has_iff m u).1 h
    obtain ⟨set, hset⟩ := Option.ne_none_iff_exists'.1 hg
    simp [h, hset, JsMap.get_set_self]
  · have h0 : m.has u = false := by simpa using h
    have hg : m.get u = none := by
      by_contra hc
      exact h ((JsMap.has_iff m u).2 hc)
    simp [h0, hg, JsMap.get_set_self]

theorem register_get_ne (m : JsMap) (u u' sid : String) (hne : u' ≠ u) :
    (register m u sid).get u' = m.get u' := by
  unfold register
  by_cases h : m.has u = true
  · have hg : m.get u ≠ none := (JsMap.has_iff m u).1 h
    obtain ⟨set, hset⟩ := Option.ne_none_iff_exists'.1 hg
    simp [h, hset, JsMap.get_set_ne _ _ _ _ hne]
  · have h0 : m.has u = false := by simpa using h
    simp [h0, JsMap.get_set_self, JsMap.get_set_ne _ _ _ _ hne]

theorem unregister_get_self (m : JsMap) (u sid : String) :
    (unregister m u sid).get u =
      match m.get u with
      | some set => if set.delete sid = [] then none else some (set.delete sid)
      | none => none := by
  unfold unregister
  cases hg : m.get u with
  | none => simp [hg]
  | some set =>
    by_cases he : set.delete sid = []
    · simp [he, JsSet.size, JsMap.get_delete_self]
    · have : ¬ (set.delete sid).length = 0 := by
        intro h; exact he (List.length_eq_zero.1 h)
      simp [he, JsSet.size, this, JsMap.get_set_self]

theorem unregister_get_ne (m : JsMap) (u u' sid : String) (hne : u' ≠ u) :
    (unregister m u sid).get u' = m.get u' := by
  unfold unregister
  cases hg : m.get u with
  | none => simp [hg]
  | some set =>
    simp only
    split
    · rw [JsMap.get_delete_ne _ _ _ hne, JsMap.get_set_ne _ _ _ _ hne]
    · rw [JsMap.get_set_ne _ _ _ _ hne]

theorem presenceInv_init : PresenceInv Server.init :=
  ⟨by simp [Server.init], by simp [Server.init, JsMap.get], by simp [Server.init]⟩

theorem socket_eq_of_id_eq {l : List Socket} (hnd : (l.map Socket.id).Nodup)
    {j k : Socket} (hj : j ∈ l) (hk : k ∈ l) (h : j.id = k.id) : j = k :=
  List.inj_on_of_nodup_map hnd hj hk h

theorem presenceInv_onConnection (s : Server) (k : Socket) (hinv : PresenceInv s)
    (hfresh : ∀ j ∈ s.sockets, j.id ≠ k.id) : PresenceInv (onConnection s k).1 := by
  obtain ⟨hnd, hentry, habsent⟩ := hinv
  refine ⟨?_, ?_, ?_⟩
  · simp only [onConnection, List.map_append, List.map_cons, List.map_nil]
    rw [List.nodup_append]
    refine ⟨hnd, by simp, ?_⟩
    intro a ha hb
    simp only [List.mem_singleton] at hb
    obtain ⟨j, hj, rfl⟩ := List.mem_map.1 ha
    exact hfresh j hj hb
  · intro u set hget
    simp only [onConnection] at hget ⊢
    by_cases hu : u = k.userId
    · subst hu
      rw [register_get_self] at hget
      have hset : set = ((s.onlineUsers.get k.userId).getD []).add k.id := by
        simpa using hget.symm
      subst hset
      refine ⟨?_, ?_⟩
      · intro h0
        have : k.id ∈ ((s.onlineUsers.get k.userId).getD []).add k.id :=
          (JsSet.mem_add _ _ _).2 (Or.inr rfl)
        rw [h0] at this
        simp at this
      · intro sid
        rw [JsSet.mem_add, List.mem_append, List.mem_singleton]
        cases hg : s.onlineUsers.get k.userId with
        | none =>
          simp only [Option.getD_none, List.not_mem_nil, false_or]
          constructor
          · rintro rfl; exact Or.inr rfl
          · rintro (h | h)
            · exact ((habsent _ hg ⟨sid, k.userId⟩ h) rfl).elim
            · exact congrArg Socket.id h
        | some old =>
          simp only [Option.getD_some]
          rw [(hentry _ _ hg).2 sid]
          constructor
          · rintro (h | rfl)
            · exact Or.inl h
            · exact Or.inr rfl
          · rintro (h | h)
            · exact Or.inl h
            · exact Or.inr (congrArg Socket.id h)
    · rw [register_get_ne _ _ _ _ hu] at hget
      obtain ⟨hne, hmem⟩ := hentry u set hget
      refine ⟨hne, fun sid => ?_⟩
      rw [hmem sid, List.mem_append, List.mem_singleton]
      constructor
      · exact Or.inl
      · rintro (h | h)
        · exact h
        · exact absurd (congrArg Socket.userId h) hu
  · intro u hget j hj
    simp only [onConnection] at hget hj
    by_cases hu : u = k.userId
    · subst hu
      rw [register_get_self] at hget
      simp at hget
    · rw [register_get_ne _ _ _ _ hu] at hget
      rcases List.mem_append.1 hj with h | h
      · exact habsent u hget j h
      · rw [List.mem_singleton.1 h]; exact fun h => hu h.symm

theorem presenceInv_onDisconnect (s : Server) (k : Socket) (hinv : PresenceInv s)
    (hopen : k ∈ s.sockets) : PresenceInv (onDisconnect s k).1 := by
  obtain ⟨hnd, hentry, habsent⟩ := hinv
  have hmemf : ∀ j : Socket, j ∈ s.sockets.filter (fun j => j.id != k.id) ↔
      j ∈ s.sockets ∧ j.id ≠ k.id := by
    intro j; simp
  refine ⟨?_, ?_, ?_⟩
  · simp only [onDisconnect]
    exact (hnd.sublist ((List.filter_sublist _).map _))
  · intro u set hget
    simp only [onDisconnect] at hget ⊢
    by_cases hu : u = k.userId
    · subst hu
      rw [unregister_get_self] at hget
      cases hg : s.onlineUsers.get k.userId with
      | none => rw [hg] at hget; simp at hget
      | some old =>
        rw [hg] at hget
        simp only at hget
        split at hget
        · simp at hget
        · rename_i hne
          have hset : set = old.delete k.id := by simpa using hget.symm
          subst hset
          refine ⟨hne, fun sid => ?_⟩
          rw [JsSet.mem_delete, (hentry _ _ hg).2 sid, hmemf]
    · rw [unregister_get_ne _ _ _ _ hu] at hget
      obtain ⟨hne, hmem⟩ := hentry u set hget
      refine ⟨hne, fun sid => ?_⟩
      rw [hmem sid, hmemf]
      constructor
      · intro h
        refine ⟨h, fun hid => hu ?_⟩
        exact congrArg Socket.userId (socket_eq_of_id_eq hnd h hopen hid)
      · exact fun h => h.1
  · intro u hget j hj
    simp only [onDisconnect] at hget hj
    obtain ⟨hj1, hj2⟩ := (hmemf j).1 hj
    by_cases hu : u = k.userId
    · subst hu
      rw [unregister_get_self] at hget
      cases hg : s.onlineUsers.get k.userId with
      | none => exact habsent _ hg j hj1
      | some old =>
        rw [hg] at hget
        simp only at hget
        split at hget
        · rename_i hempty
          intro hju
          have hjmem : j.id ∈ old := by
            rw [(hentry _ _ hg).2 j.id, ← hju]
            exact hj1
          have : j.id ∈ old.delete k.id := (JsSet.mem_delete _ _ _).2 ⟨hjmem, hj2⟩
          rw [hempty] at this
          simp at this
        · simp at hget
    · rw [unregister_get_ne _ _ _ _ hu] at hget
      exact habsent u hget j hj1

theorem presenceInv_runConn (evs : List ConnEvent) :
    ∀ s : Server, PresenceInv s → validConn s evs = true → PresenceInv (runConn s evs) := by
  induction evs with
  | nil => intro s h _; exact h
  | cons e es ih =>
    intro s hinv hvalid
    cases e with
    | connection k =>
      simp only [validConn, Bool.and_eq_true, Bool.not_eq_true', List.any_eq_false] at hvalid
      refine ih _ (presenceInv_onConnection s k hinv ?_) hvalid.2
      intro j hj
      simpa using hvalid.1 j hj
    | disconnect k =>
      simp only [validConn, Bool.and_eq_true] at hvalid
      refine ih _ (presenceInv_onDisconnect s k hinv ?_) hvalid.2
      simpa using hvalid.1


/-- C1. Presence registry: starting from the empty `onlineUsers` map, after any
sequence of connection and disconnect events the transport can produce (a new
connection has an id no open connection has, only an open connection
disconnects), for every user `u`: the map has the key `u` exactly when `u` has
an open connection, the set stored at `u` holds exactly the ids of the open
connections of `u`, no key maps to the empty set, and a user without open
connection is not among `Array.from(onlineUsers.keys())`. -/
theorem presence_registry_invariant (evs : List ConnEvent)
    (hvalid : validConn Server.init evs = true) (u : String) :
    ((runConn Server.init evs).onlineUsers.has u = true ↔
        ∃ k ∈ (runConn Server.init evs).sockets, k.userId = u) ∧
      (∀ sid, sid ∈ getUserSockets (runConn Server.init evs) u ↔
        (⟨sid, u⟩ : Socket) ∈ (runConn Server.init evs).sockets) ∧
      (runConn Server.init evs).onlineUsers.get u ≠ some [] ∧
      ((∀ k ∈ (runConn Server.init evs).sockets, k.userId ≠ u) →
        u ∉ (runConn Server.init evs).onlineUsers.keys) := by
  have hinv := presenceInv_runConn evs Server.init presenceInv_init hvalid
  generalize runConn Server.init evs = s at hinv
  obtain ⟨_, hentry, habsent⟩ := hinv
  have hkey : s.onlineUsers.get u ≠ none ↔ ∃ k ∈ s.sockets, k.userId = u := by
    constructor
    · intro h
      obtain ⟨set, hset⟩ := Option.ne_none_iff_exists'.1 h
      obtain ⟨hne, hmem⟩ := hentry u set hset
      obtain ⟨sid, hsid⟩ := List.exists_mem_of_ne_nil set hne
      exact ⟨⟨sid, u⟩, (hmem sid).1 hsid, rfl⟩
    · rintro ⟨k, hk, hku⟩ hnone
      exact habsent u hnone k hk hku
  refine ⟨?_, ?_, ?_, ?_⟩
  · rw [JsMap.has_iff]; exact hkey
  · intro sid
    unfold getUserSockets
    cases hg : s.onlineUsers.get u with
    | none =>
      simp only [Option.getD_none, List.not_mem_nil, false_iff]
      intro h
      exact habsent u hg _ h rfl
    | some set =>
      simp only [Option.getD_some]
      exact (hentry u set hg).2 sid
  · intro h
    exact (hentry u [] h).1 rfl
  · intro h hmem
    obtain ⟨k, hk, hku⟩ := hkey.1 ((JsMap.mem_keys_iff _ _).1 hmem)
    exact h k hk hku

/-- C1, witness: two devices of one user connect, a second user connects, then
the first user closes both devices. -/
theorem presence_registry_invariant_witness :
    validConn Server.init
        [ConnEvent.connection ⟨"s1", "alice"⟩, ConnEvent.connection ⟨"s2", "alice"⟩,
          ConnEvent.connection ⟨"s3", "bob"⟩, ConnEvent.disconnect ⟨"s1", "alice"⟩,
          ConnEvent.disconnect ⟨"s2", "alice"⟩] = true ∧
      "alice" ∉ (runConn Server.init
        [ConnEvent.connection ⟨"s1", "alice"⟩, ConnEvent.connection ⟨"s2", "alice"⟩,
          ConnEvent.connection ⟨"s3", "bob"⟩, ConnEvent.disconnect ⟨"s1", "alice"⟩,
          ConnEvent.disconnect ⟨"s2", "alice"⟩]).onlineUsers.keys :=
  ⟨by decide,
    (presence_registry_invariant _ (by decide) "alice").2.2.2 (by decide)⟩

/-! ### Store and delivery lemmas -/

theorem deliverAll_reportError (s s1 : Server) (origin e : String) :
    ∀ r ∈ deliverAll s1 origin (reportError s e).2, r = (origin, Event.messageError e) := by
  intro r hr
  simp only [deliverAll, reportError, List.flatMap_cons, List.flatMap_nil, List.append_nil,
    deliver, List.mem_map, List.mem_filter] at hr
  obtain ⟨k, ⟨_, hk⟩, rfl⟩ := hr
  have : k.id = origin := by simpa using hk
  rw [this]

theorem checkParticipation_of_not_mem (s : Server) (cid uid : String) (conv : Conversation)
    (hconv : Conversation.findById s cid = some conv) (hnot : uid ∉ conv.participants) :
    checkParticipation s cid uid =
      Except.error "You are not a participant of this conversation" := by
  have : conv.participants.any (fun p => p == uid) = false := by
    rw [List.any_eq_false]
    intro p hp h
    have : p = uid := by simpa using h
    exact hnot (this ▸ hp)
  simp [checkParticipation, hconv, this]

theorem checkParticipation_of_mem (s : Server) (cid uid : String) (conv : Conversation)
    (hconv : Conversation.findById s cid = some conv) (hmem : uid ∈ conv.participants) :
    checkParticipation s cid uid = Except.ok conv := by
  have : conv.participants.any (fun p => p == uid) = true := by
    rw [List.any_eq_true]
    exact ⟨uid, hmem, by simp⟩
  simp [checkParticipation, hconv, this]

theorem Message.id_of_findById {s : Server} {id : String} {m : Message}
    (h : Message.findById s id = some m) : m.id = id := by
  have := List.find?_some h
  simpa using this

theorem findMessage_after_save (s : Server) (id : String) (m m1 : Message)
    (h : Message.findById s id = some m) (hid : m1.id = id) :
    Message.findById (Message.save s m1) id = some m1 := by
  subst hid
  unfold Message.findById Message.save at *
  simp only
  generalize s.messages = l at h
  induction l with
  | nil => simp at h
  | cons x l ih =>
    simp only [List.map_cons, List.find?_cons] at h ⊢
    by_cases hx : (x.id == m1.id) = true
    · simp only [hx, if_true, beq_self_eq_true]
    · have hx1 : (x.id == m1.id) = false := by simpa using hx
      simp only [hx1, Bool.false_eq_true, if_false] at h ⊢
      exact ih h

theorem findConversation_after_save (s : Server) (m : Message) (cid : String) :
    Conversation.findById (Message.save s m) cid = Conversation.findById s cid := rfl

/-- C2. Send by a non-participant: for every send-message event with a non-blank
text and a well-formed conversationId whose conversation exists but does not
list `socket.userId` among its participants, the state is unchanged (no Message
is created, `lastMessage` is untouched) and the only `emit` call is one
`message-error` through `socket.emit`, so every receipt is that error at the
originating connection and no connection gets `new-message`. -/
theorem send_by_non_participant (isValidObjectId : String → Bool) (newId : String)
    (now : Nat) (s : Server) (socket : Socket) (cid text : String) (conv : Conversation)
    (htext : jsTrim text ≠ "") (hvalid : isValidObjectId cid = true)
    (hconv : Conversation.findById s cid = some conv)
    (hnot : socket.userId ∉ conv.participants) :
    ∃ e, sendMessage isValidObjectId newId now s socket (some cid) (some text) =
          (s, [⟨Target.self, Event.messageError e⟩]) ∧
      (cid ≠ "" → e = "You are not a participant of this conversation") ∧
      ∀ r ∈ deliverAll s socket.id
          (sendMessage isValidObjectId newId now s socket (some cid) (some text)).2,
        r = (socket.id, Event.messageError e) := by
  by_cases hc : cid = ""
  · refine ⟨"Invalid message data", ?_, fun h => absurd hc h, ?_⟩
    · simp [sendMessage, jsTruthy, hc, reportError]
    · have : sendMessage isValidObjectId newId now s socket (some cid) (some text) =
          reportError s "Invalid message data" := by
        simp [sendMessage, jsTruthy, hc]
      rw [this]
      exact deliverAll_reportError s s socket.id _
  · have hrun : sendMessage isValidObjectId newId now s socket (some cid) (some text) =
        reportError s "You are not a participant of this conversation" := by
      simp [sendMessage, jsTruthy, hc, htext, hvalid,
        checkParticipation_of_not_mem s cid socket.userId conv hconv hnot]
    refine ⟨"You are not a participant of this conversation", ?_, fun _ => rfl, ?_⟩
    · rw [hrun]; rfl
    · rw [hrun]
      exact deliverAll_reportError s s socket.id _

/-- C2, witness: carol is not a participant of the conversation of alice and bob. -/
theorem send_by_non_participant_witness :
    ∃ e, sendMessage (fun id => id.length == 24) "65f000000000000000000009" 7
          exampleServer ⟨"k9", "carol"⟩ (some "65f0000000000000000000c1") (some "hi") =
          (exampleServer, [⟨Target.self, Event.messageError e⟩]) ∧
      ("65f0000000000000000000c1" ≠ "" →
        e = "You are not a participant of this conversation") ∧
      ∀ r ∈ deliverAll exampleServer "k9"
          (sendMessage (fun id => id.length == 24) "65f000000000000000000009" 7
            exampleServer ⟨"k9", "carol"⟩ (some "65f0000000000000000000c1") (some "hi")).2,
        r = ("k9", Event.messageError e) :=
  send_by_non_participant (fun id => id.length == 24) "65f000000000000000000009" 7
    exampleServer ⟨"k9", "carol"⟩ "65f0000000000000000000c1" "hi"
    ⟨"65f0000000000000000000c1", ["alice", "bob"], none⟩
    (by decide) (by decide) (by decide) (by decide)

/-- C3 as stated fails: alice wrote the message and was later removed from the
conversation; her edit is refused although she is the original sender, the
message is left unmodified, and the error reported is the participation error,
not the not-authorized one. -/
theorem edit_by_sender_outside_conversation :
    (Message.findById formerMemberServer "65f0000000000000000000a1").map Message.sender =
        some "alice" ∧
      messageEdited (fun id => id.length == 24) 9 formerMemberServer ⟨"a1", "alice"⟩
          "65f0000000000000000000a1" "edited" =
        (formerMemberServer,
          [⟨Target.self,
            Event.messageError "You are not a participant of this conversation"⟩]) := by
  decide

/-- C3, amended. For every message-edited event on an existing message with a
well-formed id whose conversation exists: if the requester is a participant of
the conversation and is the original sender, the stored message gets the new
text, `isEdited = true` and the edit timestamp; if the requester is a
participant but not the sender, nothing is modified and the only emit is
`message-error` "Not authorized to edit this message" to the originating
socket; if the requester is not a participant, nothing is modified and the only
emit is `message-error` "You are not a participant of this conversation" to the
originating socket. -/
theorem edit_authorization (isValidObjectId : String → Bool) (now : Nat) (s : Server)
    (socket : Socket) (messageId newText : String) (message : Message) (conv : Conversation)
    (hvalid : isValidObjectId messageId = true)
    (hfind : Message.findById s messageId = some message)
    (hconv : Conversation.findById s message.conversation = some conv) :
    (socket.userId ∈ conv.participants → message.sender = socket.userId →
        (messageEdited isValidObjectId now s socket messageId newText).1 =
            Message.save s
              { message with text := newText, isEdited := true, editedAt := some now } ∧
          Message.findById (messageEdited isValidObjectId now s socket messageId newText).1
              messageId =
            some { message with text := newText, isEdited := true, editedAt := some now }) ∧
      (socket.userId ∈ conv.participants → message.sender ≠ socket.userId →
        messageEdited isValidObjectId now s socket messageId newText =
          (s, [⟨Target.self, Event.messageError "Not authorized to edit this message"⟩])) ∧
      (socket.userId ∉ conv.participants →
        messageEdited isValidObjectId now s socket messageId newText =
          (s, [⟨Target.self,
            Event.messageError "You are not a participant of this conversation"⟩])) := by
  refine ⟨?_, ?_, ?_⟩
  · intro hmem hsender
    have hcheck := checkParticipation_of_mem s _ _ conv hconv hmem
    have hrun : (messageEdited isValidObjectId now s socket messageId newText).1 =
        Message.save s
          { message with text := newText, isEdited := true, editedAt := some now } := by
      simp [messageEdited, hvalid, hfind, hcheck, hsender, findConversation_after_save, hconv]
    refine ⟨hrun, ?_⟩
    rw [hrun]
    exact findMessage_after_save s messageId message _ hfind
      (@Message.id_of_findById s messageId message hfind)
  · intro hmem hsender
    have hcheck := checkParticipation_of_mem s _ _ conv hconv hmem
    simp [messageEdited, hvalid, hfind, hcheck, hsender, reportError]
  · intro hnot
    have hcheck := checkParticipation_of_not_mem s _ _ conv hconv hnot
    simp [messageEdited, hvalid, hfind, hcheck, reportError]

/-- C3 amended, witness: in the example state bob (a participant, not the
sender) tries to edit the message alice sent. -/
theorem edit_authorization_witness :
    messageEdited (fun id => id.length == 24) 9 chatServer ⟨"b1", "bob"⟩
        "65f0000000000000000000a1" "edited" =
      (chatServer, [⟨Target.self, Event.messageError "Not authorized to edit this message"⟩]) :=
  (edit_authorization (fun id => id.length == 24) 9 chatServer ⟨"b1", "bob"⟩
    "65f0000000000000000000a1" "edited"
    ⟨"65f0000000000000000000a1", "alice", "65f0000000000000000000c1", "hello", false, none,
      [], [], 1⟩
    ⟨"65f0000000000000000000c1", ["alice", "bob"], some "65f0000000000000000000a1"⟩
    (by decide) (by decide) (by decide)).2.1 (by decide) (by decide)

/-! ### Reaction toggle -/

theorem toggleReaction_of_not_mem (l : List Reaction) (u e : String)
    (h : (⟨u, e⟩ : Reaction) ∉ l) : toggleReaction l u e = l ++ [⟨u, e⟩] := by
  have hnone : l.find? (fun r => r.user == u && r.emoji == e) = none := by
    rw [List.find?_eq_none]
    intro r hr hp
    simp only [Bool.and_eq_true, beq_iff_eq] at hp
    apply h
    have : r = ⟨u, e⟩ := by
      cases r; simp only [Reaction.mk.injEq]; exact hp
    rwa [← this]
  simp [toggleReaction, hnone]

theorem toggleReaction_of_mem (l : List Reaction) (u e : String)
    (h : (⟨u, e⟩ : Reaction) ∈ l) :
    toggleReaction l u e = l.filter (fun r => !(r.user == u && r.emoji == e)) := by
  have hsome : (l.find? (fun r => r.user == u && r.emoji == e)).isSome = true := by
    rw [List.find?_isSome]
    exact ⟨⟨u, e⟩, h, by simp⟩
  simp [toggleReaction, hsome]

theorem other_reaction_iff (u e : String) (r : Reaction) :
    (!(r.user == u && r.emoji == e)) = true ↔ r ≠ ⟨u, e⟩ := by
  obtain ⟨a, b⟩ := r
  by_cases h1 : a = u <;> by_cases h2 : b = e <;> simp [h1, h2]

theorem mem_filter_other_reactions (l : List Reaction) (u e : String) (r : Reaction) :
    r ∈ l.filter (fun r => !(r.user == u && r.emoji == e)) ↔ r ∈ l ∧ r ≠ ⟨u, e⟩ := by
  rw [List.mem_filter, other_reaction_iff]

theorem toggleReaction_twice_mem (l : List Reaction) (u e : String) (r : Reaction) :
    r ∈ toggleReaction (toggleReaction l u e) u e ↔ r ∈ l := by
  by_cases h : (⟨u, e⟩ : Reaction) ∈ l
  · have hnot : (⟨u, e⟩ : Reaction) ∉ l.filter (fun r => !(r.user == u && r.emoji == e)) := by
      rw [mem_filter_other_reactions]
      exact fun h => h.2 rfl
    rw [toggleReaction_of_mem l u e h, toggleReaction_of_not_mem _ u e hnot, List.mem_append,
      mem_filter_other_reactions, List.mem_singleton]
    constructor
    · rintro (h1 | h1)
      · exact h1.1
      · rw [h1]; exact h
    · intro h1
      by_cases h2 : r = ⟨u, e⟩
      · exact Or.inr h2
      · exact Or.inl ⟨h1, h2⟩
  · have hmem : (⟨u, e⟩ : Reaction) ∈ l ++ [⟨u, e⟩] := by simp
    rw [toggleReaction_of_not_mem l u e h, toggleReaction_of_mem _ u e hmem,
      mem_filter_other_reactions, List.mem_append, List.mem_singleton]
    constructor
    · rintro ⟨h1 | h1, h2⟩
      · exact h1
      · exact absurd h1 h2
    · intro h1
      refine ⟨Or.inl h1, ?_⟩
      rintro rfl
      exact h h1

theorem toggleReaction_twice_of_not_mem (l : List Reaction) (u e : String)
    (h : (⟨u, e⟩ : Reaction) ∉ l) : toggleReaction (toggleReaction l u e) u e = l := by
  have hmem : (⟨u, e⟩ : Reaction) ∈ l ++ [⟨u, e⟩] := by simp
  rw [toggleReaction_of_not_mem l u e h, toggleReaction_of_mem _ u e hmem]
  rw [List.filter_append]
  have h1 : l.filter (fun r => !(r.user == u && r.emoji == e)) = l := by
    rw [List.filter_eq_self]
    intro r hr
    have := (mem_filter_other_reactions l u e r).2 ⟨hr, fun hc => h (hc ▸ hr)⟩
    exact (List.mem_filter.1 this).2
  rw [h1]
  simp

theorem toggleReaction_twice_perm (l : List Reaction) (u e : String) (hnd : l.Nodup) :
    (toggleReaction (toggleReaction l u e) u e).Perm l := by
  by_cases h : (⟨u, e⟩ : Reaction) ∈ l
  · have hnot : (⟨u, e⟩ : Reaction) ∉ l.filter (fun r => !(r.user == u && r.emoji == e)) := by
      rw [mem_filter_other_reactions]
      exact fun h => h.2 rfl
    rw [toggleReaction_of_mem l u e h, toggleReaction_of_not_mem _ u e hnot]
    have hfilter : l.filter (fun r => !(r.user == u && r.emoji == e)) =
        l.erase ⟨u, e⟩ := by
      rw [hnd.erase_eq_filter]
      apply List.filter_congr
      intro r _
      rw [Bool.eq_iff_iff, other_reaction_iff, bne_iff_ne]
    rw [hfilter]
    exact (List.perm_append_comm.trans (List.perm_cons_erase h).symm)
  · rw [toggleReaction_twice_of_not_mem l u e h]

theorem messageReaction_state (isValidObjectId : String → Bool) (s : Server)
    (socket : Socket) (messageId emoji : String) (message : Message) (conv : Conversation)
    (hvalid : isValidObjectId messageId = true)
    (hfind : Message.findById s messageId = some message)
    (hconv : Conversation.findById s message.conversation = some conv)
    (hmem : socket.userId ∈ conv.participants) :
    (messageReaction isValidObjectId s socket messageId emoji).1 =
      Message.save s
        { message with
          reactions := toggleReaction message.reactions socket.userId emoji } := by
  have hcheck := checkParticipation_of_mem s _ _ conv hconv hmem
  simp [messageReaction, hvalid, hfind, hcheck, findConversation_after_save, hconv]

/-- C4. Reaction toggle is an involution: for every existing message, participant
and emoji, handling message-reaction twice in a row succeeds both times and
leaves the message with the reaction set it had before: the same (user, emoji)
pairs, every other field untouched. When the pair was absent at the start the
stored array is literally the old one; when the reactions had no duplicate
pair the array is a permutation of the old one. -/
theorem reaction_toggle_involution (isValidObjectId : String → Bool) (s : Server)
    (socket : Socket) (messageId emoji : String) (message : Message) (conv : Conversation)
    (hvalid : isValidObjectId messageId = true)
    (hfind : Message.findById s messageId = some message)
    (hconv : Conversation.findById s message.conversation = some conv)
    (hmem : socket.userId ∈ conv.participants) :
    ∃ rs, Message.findById
          (messageReaction isValidObjectId
            (messageReaction isValidObjectId s socket messageId emoji).1
            socket messageId emoji).1 messageId = some { message with reactions := rs } ∧
      (∀ r, r ∈ rs ↔ r ∈ message.reactions) ∧
      (message.reactions.Nodup → rs.Perm message.reactions) ∧
      ((⟨socket.userId, emoji⟩ : Reaction) ∉ message.reactions → rs = message.reactions) := by
  have h1 := messageReaction_state isValidObjectId s socket messageId emoji message conv
    hvalid hfind hconv hmem
  have hid : message.id = messageId := Message.id_of_findById hfind
  have hfind1 := findMessage_after_save s messageId message
    { message with reactions := toggleReaction message.reactions socket.userId emoji }
    hfind hid
  rw [← h1] at hfind1
  have hconv1 : Conversation.findById
      (messageReaction isValidObjectId s socket messageId emoji).1 message.conversation =
      some conv := by
    rw [h1]; exact hconv
  have h2 := messageReaction_state isValidObjectId _ socket messageId emoji _ conv
    hvalid hfind1 hconv1 hmem
  have hfind2 := findMessage_after_save _ messageId _
    { message with
      reactions := toggleReaction (toggleReaction message.reactions socket.userId emoji)
        socket.userId emoji }
    hfind1 hid
  refine ⟨toggleReaction (toggleReaction message.reactions socket.userId emoji)
    socket.userId emoji, ?_, ?_, ?_, ?_⟩
  · rw [h2]; exact hfind2
  · exact toggleReaction_twice_mem _ _ _
  · exact toggleReaction_twice_perm _ _ _
  · exact toggleReaction_twice_of_not_mem _ _ _

/-- C4, witness: bob reacts twice with the same emoji to the message of alice. -/
theorem reaction_toggle_involution_witness :
    ∃ rs, Message.findById
          (messageReaction (fun id => id.length == 24)
            (messageReaction (fun id => id.length == 24) chatServer ⟨"b1", "bob"⟩
              "65f0000000000000000000a1" "+1").1
            ⟨"b1", "bob"⟩ "65f0000000000000000000a1" "+1").1 "65f0000000000000000000a1" =
          some { (⟨"65f0000000000000000000a1", "alice", "65f0000000000000000000c1", "hello",
            false, none, [], [], 1⟩ : Message) with reactions := rs } ∧
      (∀ r, r ∈ rs ↔ r ∈ ([] : List Reaction)) ∧
      (([] : List Reaction).Nodup → rs.Perm []) ∧
      ((⟨"bob", "+1"⟩ : Reaction) ∉ ([] : List Reaction) → rs = []) :=
  reaction_toggle_involution (fun id => id.length == 24) chatServer ⟨"b1", "bob"⟩
    "65f0000000000000000000a1" "+1"
    ⟨"65f0000000000000000000a1", "alice", "65f0000000000000000000c1", "hello", false, none,
      [], [], 1⟩
    ⟨"65f0000000000000000000c1", ["alice", "bob"], some "65f0000000000000000000a1"⟩
    (by decide) (by decide) (by decide) (by decide)

/-! ### Mark-seen -/

theorem contains_addToSet (xs : List String) (x : String) :
    (addToSet xs x).contains x = true := by
  unfold addToSet
  split
  · assumption
  · simp

theorem unseenByOther_after_update (s : Server) (cid u : String) :
    ∀ m ∈ (Message.updateManySeen s cid u).1.messages, unseenByOther cid u m = false := by
  intro m hm
  simp only [Message.updateManySeen, List.mem_map] at hm
  obtain ⟨m0, _, rfl⟩ := hm
  by_cases h : unseenByOther cid u m0 = true
  · simp only [h, if_true]
    simp only [unseenByOther, contains_addToSet, Bool.not_true, Bool.and_false]
  · have h0 : unseenByOther cid u m0 = false := by simpa using h
    simp only [h0, Bool.false_eq_true, if_false]

theorem updateManySeen_of_all_seen (s : Server) (cid u : String)
    (h : ∀ m ∈ s.messages, unseenByOther cid u m = false) :
    Message.updateManySeen s cid u = (s, 0) := by
  have hmap : s.messages.map (fun m =>
      if unseenByOther cid u m then { m with seenBy := addToSet m.seenBy u } else m) =
      s.messages := by
    conv_rhs => rw [← List.map_id s.messages]
    apply List.map_congr_left
    intro m hm
    simp [h m hm]
  have hfilter : s.messages.filter (fun m =>
      unseenByOther cid u m && !(addToSet m.seenBy u == m.seenBy)) = [] := by
    rw [List.filter_eq_nil_iff]
    intro m hm
    simp [h m hm]
  simp only [Message.updateManySeen, hmap, hfilter, List.length_nil]

theorem markMessagesSeen_state (isValidObjectId : String → Bool) (s : Server)
    (socket : Socket) (cid : String) (conv : Conversation)
    (hvalid : isValidObjectId cid = true)
    (hconv : Conversation.findById s cid = some conv)
    (hmem : socket.userId ∈ conv.participants) :
    (markMessagesSeen isValidObjectId s socket cid).1 =
      (Message.updateManySeen s cid socket.userId).1 := by
  have hcheck := checkParticipation_of_mem s _ _ conv hconv hmem
  simp only [markMessagesSeen, hvalid, Bool.not_true, Bool.false_eq_true, if_false, hcheck]
  split <;> rfl

/-- C5. Mark-seen is idempotent: for every conversation and participant, when
mark-messages-seen is handled twice in a row, the second call finds nothing to
update (`modifiedCount` is 0), leaves the whole state as the first call left it
(so every `seenBy` is unchanged) and makes no `emit` call, hence no
`messages-seen` event reaches any connection. -/
theorem mark_seen_idempotent (isValidObjectId : String → Bool) (s : Server)
    (socket : Socket) (cid : String) (conv : Conversation)
    (hvalid : isValidObjectId cid = true)
    (hconv : Conversation.findById s cid = some conv)
    (hmem : socket.userId ∈ conv.participants) :
    (Message.updateManySeen (markMessagesSeen isValidObjectId s socket cid).1 cid
        socket.userId).2 = 0 ∧
      markMessagesSeen isValidObjectId (markMessagesSeen isValidObjectId s socket cid).1
          socket cid =
        ((markMessagesSeen isValidObjectId s socket cid).1, []) ∧
      deliverAll (markMessagesSeen isValidObjectId s socket cid).1 socket.id
        (markMessagesSeen isValidObjectId (markMessagesSeen isValidObjectId s socket cid).1
          socket cid).2 = [] := by
  have h1 := markMessagesSeen_state isValidObjectId s socket cid conv hvalid hconv hmem
  have hupd := updateManySeen_of_all_seen (Message.updateManySeen s cid socket.userId).1 cid
    socket.userId (unseenByOther_after_update s cid socket.userId)
  have hconv1 : Conversation.findById (Message.updateManySeen s cid socket.userId).1 cid =
      some conv := hconv
  have hcheck := checkParticipation_of_mem _ _ _ conv hconv1 hmem
  have hsecond : markMessagesSeen isValidObjectId (Message.updateManySeen s cid socket.userId).1
      socket cid = ((Message.updateManySeen s cid socket.userId).1, []) := by
    simp only [markMessagesSeen, hvalid, Bool.not_true, Bool.false_eq_true, if_false, hcheck,
      hupd]
    simp
  rw [h1]
  refine ⟨?_, hsecond, ?_⟩
  · rw [hupd]
  · rw [hsecond]; rfl

/-- C5, witness: bob marks the conversation seen twice after alice has sent a
message. -/
theorem mark_seen_idempotent_witness :
    (Message.updateManySeen
        (markMessagesSeen (fun id => id.length == 24) chatServer ⟨"b1", "bob"⟩
          "65f0000000000000000000c1").1 "65f0000000000000000000c1" "bob").2 = 0 ∧
      markMessagesSeen (fun id => id.length == 24)
          (markMessagesSeen (fun id => id.length == 24) chatServer ⟨"b1", "bob"⟩
            "65f0000000000000000000c1").1 ⟨"b1", "bob"⟩ "65f0000000000000000000c1" =
        ((markMessagesSeen (fun id => id.length == 24) chatServer ⟨"b1", "bob"⟩
            "65f0000000000000000000c1").1, []) ∧
      deliverAll
        (markMessagesSeen (fun id => id.length == 24) chatServer ⟨"b1", "bob"⟩
          "65f0000000000000000000c1").1 "b1"
        (markMessagesSeen (fun id => id.length == 24)
          (markMessagesSeen (fun id => id.length == 24) chatServer ⟨"b1", "bob"⟩
            "65f0000000000000000000c1").1 ⟨"b1", "bob"⟩ "65f0000000000000000000c1").2 = [] :=
  mark_seen_idempotent (fun id => id.length == 24) chatServer ⟨"b1", "bob"⟩
    "65f0000000000000000000c1"
    ⟨"65f0000000000000000000c1", ["alice", "bob"], some "65f0000000000000000000a1"⟩
    (by decide) (by decide) (by decide)

/-- C6, evaluated at the failing input: bob has already seen the first message
of alice and marks the conversation seen after her second message. The call
updates the second message only, yet the `messageIds` of the emitted
`messages-seen` event list both messages. -/
theorem mark_seen_notice_lists_already_seen_message :
    (secondMessageServer.messages.filter
        (unseenByOther "65f0000000000000000000c1" "bob")).map Message.id =
        ["65f0000000000000000000a2"] ∧
      (Message.updateManySeen secondMessageServer "65f0000000000000000000c1" "bob").2 = 1 ∧
      (markMessagesSeen (fun id => id.length == 24) secondMessageServer ⟨"b1", "bob"⟩
          "65f0000000000000000000c1").2 =
        [⟨Target.room "a1", Event.messagesSeen "65f0000000000000000000c1" "bob"
            ["65f0000000000000000000a2", "65f0000000000000000000a1"]⟩,
          ⟨Target.room "a2", Event.messagesSeen "65f0000000000000000000c1" "bob"
            ["65f0000000000000000000a2", "65f0000000000000000000a1"]⟩,
          ⟨Target.room "b1", Event.messagesSeen "65f0000000000000000000c1" "bob"
            ["65f0000000000000000000a2", "65f0000000000000000000a1"]⟩] := by
  decide

/-! ### Delivery through rooms -/

theorem PresenceInv.mem_getUserSockets {s : Server} (hinv : PresenceInv s) (u sid : String) :
    sid ∈ getUserSockets s u ↔ (⟨sid, u⟩ : Socket) ∈ s.sockets := by
  unfold getUserSockets
  cases hg : s.onlineUsers.get u with
  | none =>
    simp only [Option.getD_none, List.not_mem_nil, false_iff]
    intro h
    exact hinv.absent u hg _ h rfl
  | some set =>
    simp only [Option.getD_some]
    exact (hinv.entry u set hg).2 sid

theorem PresenceInv.of_eq {s t : Server} (hinv : PresenceInv s)
    (h1 : t.onlineUsers = s.onlineUsers) (h2 : t.sockets = s.sockets) : PresenceInv t := by
  obtain ⟨a, b, c⟩ := hinv
  exact ⟨by rw [h2]; exact a, by rw [h1, h2]; exact b, by rw [h1, h2]; exact c⟩

theorem presenceInv_exampleServer : PresenceInv exampleServer :=
  (presenceInv_runConn
    [ConnEvent.connection ⟨"a1", "alice"⟩, ConnEvent.connection ⟨"a2", "alice"⟩,
      ConnEvent.connection ⟨"b1", "bob"⟩] Server.init presenceInv_init (by decide)).of_eq
    (by decide) (by decide)

theorem privateRooms_exampleServer : PrivateRooms exampleServer := by
  unfold PrivateRooms
  decide

theorem mem_deliver_room (s : Server) (origin name : String) (ev : Event)
    (r : String × Event) :
    r ∈ deliver s origin ⟨Target.room name, ev⟩ ↔
      ∃ k ∈ s.sockets, s.inRoom name k.id = true ∧ r = (k.id, ev) := by
  simp only [deliver, List.mem_map, List.mem_filter]
  constructor
  · rintro ⟨k, ⟨hk, hroom⟩, rfl⟩
    exact ⟨k, hk, hroom, rfl⟩
  · rintro ⟨k, hk, hroom, rfl⟩
    exact ⟨k, ⟨hk, hroom⟩, rfl⟩

theorem mem_deliverAll (s : Server) (origin : String) (es : List Emit) (r : String × Event) :
    r ∈ deliverAll s origin es ↔ ∃ e ∈ es, r ∈ deliver s origin e := by
  simp [deliverAll, List.mem_flatMap]

/-- With private rooms and a consistent registry, an `emit` to the room named
by a registered connection id of user `u` reaches exactly that connection. -/
theorem mem_deliver_registered (s : Server) (hinv : PresenceInv s) (hrooms : PrivateRooms s)
    (origin u sid : String) (ev : Event) (hsid : sid ∈ getUserSockets s u)
    (r : String × Event) :
    r ∈ deliver s origin ⟨Target.room sid, ev⟩ ↔ r = (sid, ev) := by
  have hk : (⟨sid, u⟩ : Socket) ∈ s.sockets := (hinv.mem_getUserSockets u sid).1 hsid
  rw [mem_deliver_room]
  constructor
  · rintro ⟨j, hj, hroom, rfl⟩
    have : j.id = sid := (hrooms j hj ⟨sid, u⟩ hk).1 hroom
    rw [this]
  · rintro rfl
    exact ⟨⟨sid, u⟩, hk, (hrooms _ hk _ hk).2 rfl, rfl⟩

theorem sendMessage_ok (isValidObjectId : String → Bool) (newId : String) (now : Nat)
    (s : Server) (socket : Socket) (cid text : String) (conv : Conversation)
    (hcid : cid ≠ "") (htext : jsTrim text ≠ "") (hvalid : isValidObjectId cid = true)
    (hconv : Conversation.findById s cid = some conv)
    (hmem : socket.userId ∈ conv.participants) :
    sendMessage isValidObjectId newId now s socket (some cid) (some text) =
      (Conversation.saveLastMessage
          (Message.create s newId now socket.userId cid (jsTrim text)).1 conv newId,
        ⟨Target.room cid, Event.newMessage (MessagePayload.stored
            ⟨newId, socket.userId, cid, jsTrim text, false, none, [], [], now⟩) cid⟩ ::
          (getUserSockets s socket.userId).map (fun socketId =>
            ⟨Target.room socketId, Event.newMessage (MessagePayload.stored
              ⟨newId, socket.userId, cid, jsTrim text, false, none, [], [], now⟩) cid⟩)) := by
  have hcheck := checkParticipation_of_mem s _ _ conv hconv hmem
  have h1 : (cid != "") = true := by simpa using hcid
  have h2 : (jsTrim text != "") = true := by simpa using htext
  simp only [sendMessage, jsTruthy, Option.map_some', Option.getD_some, h1, h2, Bool.not_true,
    Bool.or_self, Bool.false_eq_true, if_false, hvalid, hcheck]
  rfl

/-- C7 as stated fails: alice and bob are the two participants, alice sends
"hi" from `a1`; the message is persisted, but the connection `b1` of bob has
not joined the room of the conversation and receives nothing. And in the
reachable state where her other connection `a2` has sent leave-conversation
with its own socket id, `a2` is still registered for alice and receives
nothing either. -/
theorem send_not_received_outside_room :
    (sendMessage (fun id => id.length == 24) "65f0000000000000000000a1" 1 exampleServer
        ⟨"a1", "alice"⟩ (some "65f0000000000000000000c1") (some "hi")).1.messages =
        [⟨"65f0000000000000000000a1", "alice", "65f0000000000000000000c1", "hi", false,
          none, [], [], 1⟩] ∧
      (∀ r ∈ deliverAll
          (sendMessage (fun id => id.length == 24) "65f0000000000000000000a1" 1 exampleServer
            ⟨"a1", "alice"⟩ (some "65f0000000000000000000c1") (some "hi")).1 "a1"
          (sendMessage (fun id => id.length == 24) "65f0000000000000000000a1" 1 exampleServer
            ⟨"a1", "alice"⟩ (some "65f0000000000000000000c1") (some "hi")).2,
        r.1 ≠ "b1") ∧
      "a2" ∈ getUserSockets ownRoomLeftServer "alice" ∧
      ∀ r ∈ deliverAll
          (sendMessage (fun id => id.length == 24) "65f0000000000000000000a1" 1
            ownRoomLeftServer ⟨"a1", "alice"⟩ (some "65f0000000000000000000c1")
            (some "hi")).1 "a1"
          (sendMessage (fun id => id.length == 24) "65f0000000000000000000a1" 1
            ownRoomLeftServer ⟨"a1", "alice"⟩ (some "65f0000000000000000000c1")
            (some "hi")).2,
        r.1 ≠ "a2" := by
  decide

theorem deliverAll_reportError_open (s s1 : Server) (socket : Socket) (e : String)
    (hnd : (s1.sockets.map Socket.id).Nodup) (hopen : socket ∈ s1.sockets) :
    deliverAll s1 socket.id (reportError s e).2 = [(socket.id, Event.messageError e)] := by
  have hfilter : s1.sockets.filter (fun k => k.id == socket.id) = [socket] := by
    generalize s1.sockets = l at hnd hopen
    induction l with
    | nil => simp at hopen
    | cons x l ih =>
      simp only [List.map_cons, List.nodup_cons, List.mem_map, not_exists, not_and] at hnd
      rcases List.mem_cons.1 hopen with rfl | hmem
      · have hrest : l.filter (fun k => k.id == socket.id) = [] := by
          rw [List.filter_eq_nil_iff]
          intro k hk hc
          exact hnd.1 k hk (by simpa using hc)
        simp [List.filter_cons, hrest]
      · have hx : (x.id == socket.id) = false := by
          have : ¬ socket.id = x.id := hnd.1 socket hmem
          simpa using fun h => this h.symm
        simp only [List.filter_cons, hx, Bool.false_eq_true, if_false]
        exact ih hnd.2 hmem
  simp [deliverAll, reportError, deliver, hfilter]

/-- C8. Delete by a non-sender: for every message-deleted event with deleteType
"everyone" or "forEveryone" from a requester who is a participant of the
conversation of the message but not its sender, the state is unchanged (the
message remains persisted), the only `emit` call is `socket.emit` of
`message-error` "Only sender can delete for everyone", and the receipts are
exactly that one error at the originating connection: no connection gets
`message-removed`. -/
theorem delete_by_non_sender (isValidObjectId : String → Bool) (s : Server)
    (socket : Socket) (messageId deleteType : String) (message : Message)
    (conv : Conversation)
    (hnd : (s.sockets.map Socket.id).Nodup) (hopen : socket ∈ s.sockets)
    (hvalid : isValidObjectId messageId = true)
    (hfind : Message.findById s messageId = some message)
    (hconv : Conversation.findById s message.conversation = some conv)
    (hmem : socket.userId ∈ conv.participants)
    (hsender : message.sender ≠ socket.userId)
    (htype : deleteType = "everyone" ∨ deleteType = "forEveryone") :
    messageDeleted isValidObjectId s socket messageId deleteType =
        (s, [⟨Target.self, Event.messageError "Only sender can delete for everyone"⟩]) ∧
      Message.findById (messageDeleted isValidObjectId s socket messageId deleteType).1
          messageId = some message ∧
      deliverAll (messageDeleted isValidObjectId s socket messageId deleteType).1 socket.id
          (messageDeleted isValidObjectId s socket messageId deleteType).2 =
        [(socket.id, Event.messageError "Only sender can delete for everyone")] := by
  have hcheck := checkParticipation_of_mem s _ _ conv hconv hmem
  have hrun : messageDeleted isValidObjectId s socket messageId deleteType =
      reportError s "Only sender can delete for everyone" := by
    rcases htype with rfl | rfl <;>
      simp [messageDeleted, hvalid, hfind, hcheck, hsender]
  rw [hrun]
  exact ⟨rfl, hfind, deliverAll_reportError_open s s socket _ hnd hopen⟩

/-- C8, witness: bob asks to delete for everyone the message alice sent. -/
theorem delete_by_non_sender_witness :
    messageDeleted (fun id => id.length == 24) chatServer ⟨"b1", "bob"⟩
        "65f0000000000000000000a1" "everyone" =
        (chatServer,
          [⟨Target.self, Event.messageError "Only sender can delete for everyone"⟩]) ∧
      Message.findById (messageDeleted (fun id => id.length == 24) chatServer ⟨"b1", "bob"⟩
          "65f0000000000000000000a1" "everyone").1 "65f0000000000000000000a1" =
        some ⟨"65f0000000000000000000a1", "alice", "65f0000000000000000000c1", "hello",
          false, none, [], [], 1⟩ ∧
      deliverAll (messageDeleted (fun id => id.length == 24) chatServer ⟨"b1", "bob"⟩
          "65f0000000000000000000a1" "everyone").1 "b1"
          (messageDeleted (fun id => id.length == 24) chatServer ⟨"b1", "bob"⟩
            "65f0000000000000000000a1" "everyone").2 =
        [("b1", Event.messageError "Only sender can delete for everyone")] :=
  delete_by_non_sender (fun id => id.length == 24) chatServer ⟨"b1", "bob"⟩
    "65f0000000000000000000a1" "everyone"
    ⟨"65f0000000000000000000a1", "alice", "65f0000000000000000000c1", "hello", false, none,
      [], [], 1⟩
    ⟨"65f0000000000000000000c1", ["alice", "bob"], some "65f0000000000000000000a1"⟩
    (by decide) (by decide) (by decide) (by decide) (by decide) (by decide) (by decide)
    (Or.inl rfl)

theorem mem_deliverAll_emitToOtherParticipants (s : Server) (hinv : PresenceInv s)
    (hrooms : PrivateRooms s) (origin : String) (conv : Conversation) (uid : String)
    (ev : Event) (r : String × Event) :
    r ∈ deliverAll s origin (emitToOtherParticipants s conv uid ev) ↔
      ∃ p ∈ conv.participants, p ≠ uid ∧ ∃ sid ∈ getUserSockets s p, r = (sid, ev) := by
  rw [mem_deliverAll]
  unfold emitToOtherParticipants
  constructor
  · rintro ⟨e, he, hr⟩
    obtain ⟨p, hp, hep⟩ := List.mem_flatMap.1 he
    by_cases hpu : p = uid
    · simp [hpu] at hep
    · have hne : (p != uid) = true := by simpa using hpu
      simp only [hne, if_true] at hep
      obtain ⟨sid, hsid, rfl⟩ := List.mem_map.1 hep
      rw [mem_deliver_registered s hinv hrooms _ _ _ _ hsid] at hr
      exact ⟨p, hp, hpu, sid, hsid, hr⟩
  · rintro ⟨p, hp, hpu, sid, hsid, rfl⟩
    have hne : (p != uid) = true := by simpa using hpu
    refine ⟨⟨Target.room sid, ev⟩, List.mem_flatMap.2 ⟨p, hp, ?_⟩, ?_⟩
    · simp only [hne, if_true]
      exact List.mem_map.2 ⟨sid, hsid, rfl⟩
    · rw [mem_deliver_registered s hinv hrooms _ _ _ _ hsid]

/-! ### Failure reporting -/

theorem checkParticipation_of_fails (s : Server) (cid uid : String)
    (h : participationFails s cid uid = true) :
    ∃ e, checkParticipation s cid uid = Except.error e := by
  unfold participationFails at h
  unfold checkParticipation
  cases hc : Conversation.findById s cid with
  | none => exact ⟨_, rfl⟩
  | some conv =>
    rw [hc] at h
    have hnot : uid ∉ conv.participants := by simpa using h
    have : conv.participants.any (fun p => p == uid) = false := by
      rw [List.any_eq_false]
      intro p hp hpu
      have : p = uid := by simpa using hpu
      exact hnot (this ▸ hp)
    simp only [this]
    exact ⟨_, rfl⟩

theorem checkParticipationRaw_of_fails (isValidObjectId : String → Bool) (s : Server)
    (cid uid : String) (h : participationFails s cid uid = true) :
    ∃ e, checkParticipationRaw isValidObjectId s cid uid = Except.error e := by
  unfold checkParticipationRaw
  split
  · exact checkParticipation_of_fails s cid uid h
  · exact ⟨_, rfl⟩

theorem mem_deliverAll_reportError_open (s s1 : Server) (socket : Socket) (e : String)
    (hopen : socket ∈ s1.sockets) :
    (socket.id, Event.messageError e) ∈ deliverAll s1 socket.id (reportError s e).2 := by
  simp only [deliverAll, reportError, List.flatMap_cons, List.flatMap_nil, List.append_nil,
    deliver, List.mem_map, List.mem_filter]
  exact ⟨socket, ⟨hopen, by simp⟩, rfl⟩

theorem handle_of_authFailure (isValidObjectId : String → Bool) (newId : String) (now : Nat)
    (s : Server) (socket : Socket) (ev : Inbound)
    (hfail : authFailure s socket.userId ev = true) :
    (ev.logsOnly = false →
        ∃ e, handle isValidObjectId newId now s socket ev = reportError s e) ∧
      (ev.logsOnly = true → handle isValidObjectId newId now s socket ev = (s, [])) := by
  cases ev with
  | joinConversation cid =>
    refine ⟨fun _ => ?_, fun h => by simp [Inbound.logsOnly] at h⟩
    obtain ⟨e, he⟩ := checkParticipationRaw_of_fails isValidObjectId s cid _ hfail
    exact ⟨e, by simp [handle, joinConversation, he]⟩
  | leaveConversation cid => simp [authFailure] at hfail
  | sendMessage cid text =>
    refine ⟨fun _ => ?_, fun h => by simp [Inbound.logsOnly] at h⟩
    obtain ⟨e, he⟩ := checkParticipation_of_fails s _ _ hfail
    simp only [handle, sendMessage]
    split
    · exact ⟨_, rfl⟩
    · split
      · exact ⟨_, rfl⟩
      · rw [he]; exact ⟨_, rfl⟩
  | newMessageBroadcast message cid =>
    refine ⟨fun h => by simp [Inbound.logsOnly] at h, fun _ => ?_⟩
    obtain ⟨e, he⟩ := checkParticipationRaw_of_fails isValidObjectId s _ _ hfail
    simp only [handle, newMessageBroadcast]
    split
    · rfl
    · rw [he]
  | messageEdited mid newText =>
    refine ⟨fun _ => ?_, fun h => by simp [Inbound.logsOnly] at h⟩
    simp only [handle, messageEdited]
    split
    · exact ⟨_, rfl⟩
    · simp only [authFailure] at hfail
      cases hm : Message.findById s mid with
      | none => exact ⟨_, rfl⟩
      | some m =>
        rw [hm] at hfail
        simp only
        cases hpf : participationFails s m.conversation socket.userId with
        | true =>
          obtain ⟨e, he⟩ := checkParticipation_of_fails s _ _ hpf
          rw [he]; exact ⟨_, rfl⟩
        | false =>
          simp only [hpf, Bool.false_or] at hfail
          have hs : (m.sender != socket.userId) = true := hfail
          cases checkParticipation s m.conversation socket.userId with
          | error e => exact ⟨_, rfl⟩
          | ok c => simp only [hs, if_true]; exact ⟨_, rfl⟩
  | messageDeleted mid deleteType =>
    refine ⟨fun _ => ?_, fun h => by simp [Inbound.logsOnly] at h⟩
    simp only [handle, messageDeleted]
    split
    · exact ⟨_, rfl⟩
    · simp only [authFailure] at hfail
      cases hm : Message.findById s mid with
      | none => exact ⟨_, rfl⟩
      | some m =>
        rw [hm] at hfail
        simp only
        cases hpf : participationFails s m.conversation socket.userId with
        | true =>
          obtain ⟨e, he⟩ := checkParticipation_of_fails s _ _ hpf
          rw [he]; exact ⟨_, rfl⟩
        | false =>
          simp only [hpf, Bool.false_or, Bool.and_eq_true] at hfail
          cases checkParticipation s m.conversation socket.userId with
          | error e => exact ⟨_, rfl⟩
          | ok c => simp only [hfail.1, hfail.2, if_true]; exact ⟨_, rfl⟩
  | messageReaction mid emoji =>
    refine ⟨fun _ => ?_, fun h => by simp [Inbound.logsOnly] at h⟩
    simp only [handle, messageReaction]
    split
    · exact ⟨_, rfl⟩
    · simp only [authFailure] at hfail
      cases hm : Message.findById s mid with
      | none => exact ⟨_, rfl⟩
      | some m =>
        rw [hm] at hfail
        obtain ⟨e, he⟩ := checkParticipation_of_fails s _ _ hfail
        simp only [he]; exact ⟨_, rfl⟩
  | typingStarted cid =>
    refine ⟨fun h => by simp [Inbound.logsOnly] at h, fun _ => ?_⟩
    obtain ⟨e, he⟩ := checkParticipation_of_fails s _ _ hfail
    simp only [handle, typingStarted]
    split
    · rfl
    · rw [he]
  | typingStopped cid =>
    refine ⟨fun h => by simp [Inbound.logsOnly] at h, fun _ => ?_⟩
    obtain ⟨e, he⟩ := checkParticipation_of_fails s _ _ hfail
    simp only [handle, typingStopped]
    split
    · rfl
    · rw [he]
  | markMessagesSeen cid =>
    refine ⟨fun _ => ?_, fun h => by simp [Inbound.logsOnly] at h⟩
    obtain ⟨e, he⟩ := checkParticipation_of_fails s _ _ hfail
    simp only [handle, markMessagesSeen]
    split
    · exact ⟨_, rfl⟩
    · rw [he]; exact ⟨_, rfl⟩

/-- C10 as stated fails for new-message-broadcast: alice is no longer a
participant of the conversation, her broadcast fails the participation check,
and the handler emits nothing at all, so no `message-error` reaches her
connection. -/
theorem broadcast_failure_not_reported :
    authFailure formerMemberServer "alice"
        (Inbound.newMessageBroadcast (some "photo") (some "65f0000000000000000000c1")) = true ∧
      checkParticipationRaw (fun id => id.length == 24) formerMemberServer
          "65f0000000000000000000c1" "alice" =
        Except.error "You are not a participant of this conversation" ∧
      handle (fun id => id.length == 24) "65f0000000000000000000a9" 9 formerMemberServer
          ⟨"a1", "alice"⟩
          (Inbound.newMessageBroadcast (some "photo") (some "65f0000000000000000000c1")) =
        (formerMemberServer, []) :=
  ⟨by decide, rfl, by decide⟩

/-- C10, amended. When a handler fails because the conversation or the message
is not found, or the requester is not a participant, or not the sender: for
join-conversation, send-message, message-edited, message-deleted,
message-reaction and mark-messages-seen the state is unchanged and the only
`emit` call is `message-error` through `socket.emit`, so the originating
connection receives it and no other connection receives anything; for
new-message-broadcast, as for the typing signals, the state is unchanged and
nothing is emitted to any connection. -/
theorem failure_reporting (isValidObjectId : String → Bool) (newId : String) (now : Nat)
    (s : Server) (socket : Socket) (ev : Inbound)
    (hfail : authFailure s socket.userId ev = true) :
    (ev.logsOnly = false →
        ∃ e, handle isValidObjectId newId now s socket ev =
              (s, [⟨Target.self, Event.messageError e⟩]) ∧
          (∀ r ∈ deliverAll s socket.id (handle isValidObjectId newId now s socket ev).2,
            r = (socket.id, Event.messageError e)) ∧
          (socket ∈ s.sockets →
            (socket.id, Event.messageError e) ∈
              deliverAll s socket.id (handle isValidObjectId newId now s socket ev).2)) ∧
      (ev.logsOnly = true →
        handle isValidObjectId newId now s socket ev = (s, []) ∧
          deliverAll s socket.id (handle isValidObjectId newId now s socket ev).2 = []) := by
  obtain ⟨h1, h2⟩ := handle_of_authFailure isValidObjectId newId now s socket ev hfail
  refine ⟨fun hk => ?_, fun hk => ?_⟩
  · obtain ⟨e, he⟩ := h1 hk
    rw [he]
    exact ⟨e, rfl, deliverAll_reportError s s socket.id e,
      mem_deliverAll_reportError_open s s socket e⟩
  · rw [h2 hk]
    exact ⟨rfl, rfl⟩

/-- C10 amended, witness: alice, no longer a participant, reacts to her old
message; the participation error goes to her connection only. -/
theorem failure_reporting_witness :
    ∃ e, handle (fun id => id.length == 24) "65f0000000000000000000a9" 9 formerMemberServer
          ⟨"a1", "alice"⟩ (Inbound.messageReaction "65f0000000000000000000a1" "+1") =
          (formerMemberServer, [⟨Target.self, Event.messageError e⟩]) ∧
      (∀ r ∈ deliverAll formerMemberServer "a1"
          (handle (fun id => id.length == 24) "65f0000000000000000000a9" 9 formerMemberServer
            ⟨"a1", "alice"⟩ (Inbound.messageReaction "65f0000000000000000000a1" "+1")).2,
        r = ("a1", Event.messageError e)) ∧
      ((⟨"a1", "alice"⟩ : Socket) ∈ formerMemberServer.sockets →
        ("a1", Event.messageError e) ∈
          deliverAll formerMemberServer "a1"
            (handle (fun id => id.length == 24) "65f0000000000000000000a9" 9
              formerMemberServer ⟨"a1", "alice"⟩
              (Inbound.messageReaction "65f0000000000000000000a1" "+1")).2) :=
  (failure_reporting (fun id => id.length == 24) "65f0000000000000000000a9" 9
    formerMemberServer ⟨"a1", "alice"⟩ (Inbound.messageReaction "65f0000000000000000000a1" "+1")
    (by decide)).1 (by decide)

/-! ### Private rooms along connection traces -/

/-- Along connection traces every room is the private room of an open socket. -/
theorem rooms_runConn (evs : List ConnEvent) :
    ∀ s : Server,
      ((∀ r ∈ s.rooms, r.1 = r.2 ∧ ∃ k ∈ s.sockets, k.id = r.2) ∧
        ∀ k ∈ s.sockets, (k.id, k.id) ∈ s.rooms) →
      (∀ r ∈ (runConn s evs).rooms, r.1 = r.2 ∧ ∃ k ∈ (runConn s evs).sockets, k.id = r.2) ∧
        ∀ k ∈ (runConn s evs).sockets, (k.id, k.id) ∈ (runConn s evs).rooms := by
  induction evs with
  | nil => intro s h; exact h
  | cons e es ih =>
    intro s h
    obtain ⟨h1, h2⟩ := h
    apply ih
    cases e with
    | connection k =>
      simp only [ConnEvent.apply, onConnection]
      refine ⟨fun r hr => ?_, fun j hj => ?_⟩
      · rcases List.mem_append.1 hr with hr | hr
        · obtain ⟨ha, j, hj, hb⟩ := h1 r hr
          exact ⟨ha, j, List.mem_append_left _ hj, hb⟩
        · rw [List.mem_singleton.1 hr]
          exact ⟨rfl, k, by simp, rfl⟩
      · rcases List.mem_append.1 hj with hj | hj
        · exact List.mem_append_left _ (h2 j hj)
        · rw [List.mem_singleton.1 hj]; simp
    | disconnect k =>
      simp only [ConnEvent.apply, onDisconnect]
      refine ⟨fun r hr => ?_, fun j hj => ?_⟩
      · obtain ⟨hr1, hr2⟩ := List.mem_filter.1 hr
        obtain ⟨ha, j, hj, hb⟩ := h1 r hr1
        refine ⟨ha, j, List.mem_filter.2 ⟨hj, ?_⟩, hb⟩
        rw [hb]; exact hr2
      · obtain ⟨hj1, hj2⟩ := List.mem_filter.1 hj
        exact List.mem_filter.2 ⟨h2 j hj1, hj2⟩

/-- The private-room property holds in every state reached from process start
by connection and disconnect events. -/
theorem privateRooms_runConn (evs : List ConnEvent) :
    PrivateRooms (runConn Server.init evs) := by
  obtain ⟨h1, h2⟩ := rooms_runConn evs Server.init
    ⟨by simp [Server.init], by simp [Server.init]⟩
  intro j hj k hk
  constructor
  · intro h
    have hmem : (k.id, j.id) ∈ (runConn Server.init evs).rooms := by
      simpa [Server.inRoom] using h
    exact ((h1 _ hmem).1).symm
  · intro h
    have := h2 k hk
    rw [h]
    simpa [Server.inRoom] using this

/-! ### Connection authenticator -/

theorem socketAuth_of_token (cookieParse : String → String → Option String)
    (jwtVerify : String → Option (Option String))
    (findUser : String → Option (Option String)) (h : Handshake) (token : Option String)
    (hsel : (if !jsTruthy (cookieToken cookieParse h) then h.authToken
      else cookieToken cookieParse h) = token)
    (htruthy : jsTruthy token = true) :
    (∃ rest, (socketAuth cookieParse jwtVerify findUser h).1 =
        AuthCall.verify (token.getD "") :: rest) ∧
      (socketAuth cookieParse jwtVerify findUser h).2 ≠
        AuthOutcome.rejected "No token provided" := by
  have hne1 : AuthOutcome.rejected "Authentication error" ≠
      AuthOutcome.rejected "No token provided" := by decide
  have hne2 : AuthOutcome.rejected "Invalid token" ≠
      AuthOutcome.rejected "No token provided" := by decide
  simp only [socketAuth, hsel, htruthy, Bool.not_true, Bool.false_eq_true, if_false]
  cases jwtVerify (token.getD "") with
  | none => exact ⟨⟨_, rfl⟩, hne1⟩
  | some decodedId =>
    simp only
    split
    · exact ⟨⟨_, rfl⟩, hne2⟩
    · cases findUser (decodedId.getD "") with
      | none => exact ⟨⟨_, rfl⟩, hne1⟩
      | some info => exact ⟨⟨_, rfl⟩, fun hc => AuthOutcome.noConfusion hc⟩

/-- C11. Credential selection at connection time: for every handshake, when the
cookie header carries a (non-empty) `token` cookie the first collaborator call
is `jwt.verify` on that cookie value, whether or not `auth.token` is present;
when it carries none and `auth.token` is a (non-empty) token the first call is
`jwt.verify` on `auth.token`; and the middleware rejects with
"No token provided" exactly when neither location carries a token, in which
case no verification and no user lookup is made. -/
theorem credential_selection (cookieParse : String → String → Option String)
    (jwtVerify : String → Option (Option String))
    (findUser : String → Option (Option String)) (h : Handshake) :
    (jsTruthy (cookieToken cookieParse h) = true →
        ∃ rest, (socketAuth cookieParse jwtVerify findUser h).1 =
          AuthCall.verify ((cookieToken cookieParse h).getD "") :: rest) ∧
      (jsTruthy (cookieToken cookieParse h) = false → jsTruthy h.authToken = true →
        ∃ rest, (socketAuth cookieParse jwtVerify findUser h).1 =
          AuthCall.verify (h.authToken.getD "") :: rest) ∧
      ((socketAuth cookieParse jwtVerify findUser h).2 =
          AuthOutcome.rejected "No token provided" ↔
        jsTruthy (cookieToken cookieParse h) = false ∧ jsTruthy h.authToken = false) ∧
      (jsTruthy (cookieToken cookieParse h) = false → jsTruthy h.authToken = false →
        socketAuth cookieParse jwtVerify findUser h =
          ([], AuthOutcome.rejected "No token provided")) := by
  have hnone : jsTruthy (cookieToken cookieParse h) = false → jsTruthy h.authToken = false →
      socketAuth cookieParse jwtVerify findUser h =
        ([], AuthOutcome.rejected "No token provided") := by
    intro hc ha
    simp [socketAuth, hc, ha]
  refine ⟨fun hc => ?_, fun hc ha => ?_, ⟨fun hrej => ?_, fun hn => ?_⟩, hnone⟩
  · exact (socketAuth_of_token cookieParse jwtVerify findUser h _ (by simp [hc]) hc).1
  · exact (socketAuth_of_token cookieParse jwtVerify findUser h _ (by simp [hc]) ha).1
  · cases hc : jsTruthy (cookieToken cookieParse h) with
    | true =>
      exact absurd hrej
        (socketAuth_of_token cookieParse jwtVerify findUser h _ (by simp [hc]) hc).2
    | false =>
      cases ha : jsTruthy h.authToken with
      | true =>
        exact absurd hrej
          (socketAuth_of_token cookieParse jwtVerify findUser h _ (by simp [hc]) ha).2
      | false => exact ⟨rfl, rfl⟩
  · rw [hnone hn.1 hn.2]

/-- C11, witness: the handshake carries the cookie `token=abc` and the auth
token `xyz`; the cookie wins. -/
theorem credential_selection_witness :
    (∃ rest, (socketAuth exampleCookieParse exampleJwtVerify exampleFindUser
        ⟨some "token=abc", some "xyz"⟩).1 = AuthCall.verify "abc" :: rest) ∧
      socketAuth exampleCookieParse exampleJwtVerify exampleFindUser
          ⟨some "token=abc", some "xyz"⟩ =
        ([AuthCall.verify "abc", AuthCall.findUser "alice"],
          AuthOutcome.accepted "alice" (some "profile of alice")) :=
  ⟨(credential_selection exampleCookieParse exampleJwtVerify exampleFindUser
      ⟨some "token=abc", some "xyz"⟩).1 (by decide),
    by decide⟩

/-! ### Reaction uniqueness -/

theorem toggleReaction_nodup (l : List Reaction) (u e : String) (hnd : l.Nodup) :
    (toggleReaction l u e).Nodup := by
  by_cases h : (⟨u, e⟩ : Reaction) ∈ l
  · rw [toggleReaction_of_mem l u e h]
    exact hnd.filter _
  · rw [toggleReaction_of_not_mem l u e h, List.nodup_append]
    refine ⟨hnd, by simp, ?_⟩
    intro a ha hb
    rw [List.mem_singleton.1 hb] at ha
    exact h ha

theorem mem_toggleReaction_other (l : List Reaction) (u e : String) (r : Reaction)
    (hr : r ≠ ⟨u, e⟩) : r ∈ toggleReaction l u e ↔ r ∈ l := by
  by_cases h : (⟨u, e⟩ : Reaction) ∈ l
  · rw [toggleReaction_of_mem l u e h, mem_filter_other_reactions]
    exact ⟨fun h1 => h1.1, fun h1 => ⟨h1, hr⟩⟩
  · rw [toggleReaction_of_not_mem l u e h, List.mem_append, List.mem_singleton]
    exact ⟨fun h1 => h1.resolve_right hr, Or.inl⟩

theorem mem_toggleReaction_self (l : List Reaction) (u e : String) :
    (⟨u, e⟩ : Reaction) ∈ toggleReaction l u e ↔ (⟨u, e⟩ : Reaction) ∉ l := by
  by_cases h : (⟨u, e⟩ : Reaction) ∈ l
  · rw [toggleReaction_of_mem l u e h, mem_filter_other_reactions]
    exact ⟨fun h1 => absurd rfl h1.2, fun h1 => absurd h h1⟩
  · rw [toggleReaction_of_not_mem l u e h]
    simp [h]

/-- The state after a message-reaction event on a stored message: unchanged
when the handler reports an error, otherwise the message saved with the
toggled reactions. -/
theorem messageReaction_state_cases (isValidObjectId : String → Bool) (s : Server)
    (socket : Socket) (messageId emoji : String) (message : Message)
    (hfind : Message.findById s messageId = some message) :
    (messageReaction isValidObjectId s socket messageId emoji).1 = s ∨
      (messageReaction isValidObjectId s socket messageId emoji).1 =
        Message.save s
          { message with
            reactions := toggleReaction message.reactions socket.userId emoji } := by
  simp only [messageReaction, hfind]
  split
  · exact Or.inl rfl
  · cases checkParticipation s message.conversation socket.userId with
    | error e => exact Or.inl rfl
    | ok c =>
      simp only
      split
      · exact Or.inr rfl
      · exact Or.inr rfl

/-- C12. Reaction uniqueness invariant: if the reactions of a stored message
contain no two entries with the same (user, emoji) pair, then after any
message-reaction event on it (any requester, any emoji) the message is still
stored and its reactions still contain no two entries with the same pair;
the entries of the requester with other emojis are exactly those held before,
so a user may hold several entries with distinct emojis; and when the
requester is a participant the event adds the (requester, emoji) entry exactly
when it was absent. -/
theorem reaction_uniqueness (isValidObjectId : String → Bool) (s : Server)
    (socket : Socket) (messageId emoji : String) (message : Message)
    (hfind : Message.findById s messageId = some message)
    (hnodup : message.reactions.Nodup) :
    ∃ m1, Message.findById (messageReaction isValidObjectId s socket messageId emoji).1
          messageId = some m1 ∧
      m1.reactions.Nodup ∧
      (∀ e1, e1 ≠ emoji →
        ((⟨socket.userId, e1⟩ : Reaction) ∈ m1.reactions ↔
          (⟨socket.userId, e1⟩ : Reaction) ∈ message.reactions)) ∧
      (∀ conv, isValidObjectId messageId = true →
        Conversation.findById s message.conversation = some conv →
        socket.userId ∈ conv.participants →
        ((⟨socket.userId, emoji⟩ : Reaction) ∈ m1.reactions ↔
          (⟨socket.userId, emoji⟩ : Reaction) ∉ message.reactions)) := by
  have hid : message.id = messageId := Message.id_of_findById hfind
  have hsaved := findMessage_after_save s messageId message
    { message with reactions := toggleReaction message.reactions socket.userId emoji }
    hfind hid
  have hsuccess : ∀ conv, isValidObjectId messageId = true →
      Conversation.findById s message.conversation = some conv →
      socket.userId ∈ conv.participants →
      (messageReaction isValidObjectId s socket messageId emoji).1 =
        Message.save s
          { message with
            reactions := toggleReaction message.reactions socket.userId emoji } :=
    fun conv hv hc hm =>
      messageReaction_state isValidObjectId s socket messageId emoji message conv hv hfind hc hm
  rcases messageReaction_state_cases isValidObjectId s socket messageId emoji message hfind
    with h | h
  · refine ⟨message, by rw [h]; exact hfind, hnodup, fun _ _ => Iff.rfl, ?_⟩
    intro conv hv hc hm
    have h2 := hsuccess conv hv hc hm
    rw [h2] at h
    rw [h] at hsaved
    have hm1 : message = { message with
        reactions := toggleReaction message.reactions socket.userId emoji } :=
      Option.some.inj (hfind.symm.trans hsaved)
    have hr : message.reactions = toggleReaction message.reactions socket.userId emoji :=
      congrArg Message.reactions hm1
    have := mem_toggleReaction_self message.reactions socket.userId emoji
    rw [← hr] at this
    exact this
  · refine ⟨_, by rw [h]; exact hsaved, toggleReaction_nodup _ _ _ hnodup, ?_, ?_⟩
    · intro e1 he1
      apply mem_toggleReaction_other
      intro hc
      exact he1 (congrArg Reaction.emoji hc)
    · intro _ _ _ _
      exact mem_toggleReaction_self _ _ _

/-- C12, witness: bob, who already reacted with "+1", reacts with "heart"; he
then holds two entries with distinct emojis and no pair occurs twice. -/
theorem reaction_uniqueness_witness :
    (∃ m1, Message.findById
          (messageReaction (fun id => id.length == 24) reactedServer ⟨"b1", "bob"⟩
            "65f0000000000000000000a1" "heart").1 "65f0000000000000000000a1" = some m1 ∧
        m1.reactions.Nodup ∧
        (∀ e1, e1 ≠ "heart" →
          ((⟨"bob", e1⟩ : Reaction) ∈ m1.reactions ↔
            (⟨"bob", e1⟩ : Reaction) ∈ [(⟨"bob", "+1"⟩ : Reaction)])) ∧
        (∀ conv, (fun id => id.length == 24) "65f0000000000000000000a1" = true →
          Conversation.findById reactedServer "65f0000000000000000000c1" = some conv →
          "bob" ∈ conv.participants →
          ((⟨"bob", "heart"⟩ : Reaction) ∈ m1.reactions ↔
            (⟨"bob", "heart"⟩ : Reaction) ∉ [(⟨"bob", "+1"⟩ : Reaction)]))) ∧
      (Message.findById
          (messageReaction (fun id => id.length == 24) reactedServer ⟨"b1", "bob"⟩
            "65f0000000000000000000a1" "heart").1 "65f0000000000000000000a1").map
          Message.reactions = some [⟨"bob", "+1"⟩, ⟨"bob", "heart"⟩] :=
  ⟨reaction_uniqueness (fun id => id.length == 24) reactedServer ⟨"b1", "bob"⟩
      "65f0000000000000000000a1" "heart"
      ⟨"65f0000000000000000000a1", "alice", "65f0000000000000000000c1", "hello", false, none,
        [⟨"bob", "+1"⟩], [], 1⟩
      (by decide) (by decide),
    by decide⟩

/-! ### Delivery multiplicity -/

theorem count_receipts_of_sockets (l : List Socket) (hnd : (l.map Socket.id).Nodup)
    (k : Socket) (hk : k ∈ l) (p : Socket → Bool) (ev : Event) :
    ((l.filter p).map (fun j => (j.id, ev))).count (k.id, ev) = if p k = true then 1 else 0 := by
  induction l with
  | nil => simp at hk
  | cons x l ih =>
    simp only [List.map_cons, List.nodup_cons, List.mem_map, not_exists, not_and] at hnd
    have hzero : ∀ (l1 : List Socket), (∀ j ∈ l1, j.id ≠ k.id) →
        ((l1.filter p).map (fun j => (j.id, ev))).count (k.id, ev) = 0 := by
      intro l1 h1
      rw [List.count_eq_zero]
      intro hmem
      obtain ⟨j, hj, hjeq⟩ := List.mem_map.1 hmem
      exact h1 j (List.mem_filter.1 hj).1 (congrArg Prod.fst hjeq)
    rcases List.mem_cons.1 hk with rfl | hmem
    · have hrest := hzero l (fun j hj hc => hnd.1 j hj hc)
      by_cases hp : p k = true
      · simp only [List.filter_cons, hp, if_true, List.map_cons, List.count_cons_self, hrest]
      · have hp0 : p k = false := by simpa using hp
        simp only [List.filter_cons, hp0, Bool.false_eq_true, if_false, hrest]
    · have hx : x.id ≠ k.id := fun hc => hnd.1 k hmem hc.symm
      have hne : ((x.id, ev) == (k.id, ev)) = false := by
        simpa using fun h => absurd h hx
      by_cases hp : p x = true
      · simp only [List.filter_cons, hp, if_true, List.map_cons, List.count_cons, hne,
          Bool.false_eq_true, if_false, Nat.add_zero]
        exact ih hnd.2 hmem
      · have hp0 : p x = false := by simpa using hp
        simp only [List.filter_cons, hp0, Bool.false_eq_true, if_false]
        exact ih hnd.2 hmem

theorem count_deliver_room (s : Server) (hnd : (s.sockets.map Socket.id).Nodup)
    (origin name : String) (ev : Event) (k : Socket) (hk : k ∈ s.sockets) :
    (deliver s origin ⟨Target.room name, ev⟩).count (k.id, ev) =
      if s.inRoom name k.id = true then 1 else 0 := by
  simp only [deliver]
  exact count_receipts_of_sockets s.sockets hnd k hk (fun j => s.inRoom name j.id) ev

theorem count_deliverAll_registered (s : Server) (hinv : PresenceInv s)
    (hrooms : PrivateRooms s) (origin u : String) (ev : Event) (k : Socket)
    (hk : k ∈ s.sockets) (set : List String) (hset : ∀ sid ∈ set, sid ∈ getUserSockets s u) :
    (deliverAll s origin (set.map (fun sid => ⟨Target.room sid, ev⟩))).count (k.id, ev) =
      set.count k.id := by
  induction set with
  | nil => rfl
  | cons sid set ih =>
    have hsid : (⟨sid, u⟩ : Socket) ∈ s.sockets :=
      (hinv.mem_getUserSockets u sid).1 (hset sid (List.mem_cons_self _ _))
    have hroom : s.inRoom sid k.id = true ↔ k.id = sid := hrooms k hk ⟨sid, u⟩ hsid
    have hhead := count_deliver_room s hinv.ids_nodup origin sid ev k hk
    have htail := ih (fun x hx => hset x (List.mem_cons_of_mem _ hx))
    simp only [deliverAll, List.map_cons, List.flatMap_cons, List.count_append] at htail ⊢
    rw [hhead, htail, List.count_cons]
    by_cases hc : k.id = sid
    · have h1 : s.inRoom sid k.id = true := hroom.2 hc
      have h2 : (sid == k.id) = true := by simp [hc]
      simp only [h1, h2, if_true]
      omega
    · have h1 : ¬ s.inRoom sid k.id = true := fun h => hc (hroom.1 h)
      have h2 : (sid == k.id) = false := by simpa using fun h => hc h.symm
      simp only [h1, h2, Bool.false_eq_true, if_false]
      omega

theorem JsSet.nodup_add (s : JsSet) (x : String) (h : s.Nodup) : (s.add x).Nodup := by
  unfold JsSet.add
  split
  · exact h
  · rename_i hx
    rw [List.nodup_append]
    refine ⟨h, by simp, ?_⟩
    intro a ha hb
    rw [List.mem_singleton.1 hb] at ha
    exact hx ha

/-- Along connection traces every set of the registry is free of duplicates,
as a JavaScript `Set` is. -/
theorem registry_nodup_runConn (evs : List ConnEvent) :
    ∀ s : Server, (∀ u, (getUserSockets s u).Nodup) →
      ∀ u, (getUserSockets (runConn s evs) u).Nodup := by
  induction evs with
  | nil => intro s h; exact h
  | cons e es ih =>
    intro s h
    apply ih
    intro u
    cases e with
    | connection k =>
      simp only [ConnEvent.apply, onConnection, getUserSockets]
      by_cases hu : u = k.userId
      · subst hu
        rw [register_get_self]
        exact JsSet.nodup_add _ _ (h k.userId)
      · rw [register_get_ne _ _ _ _ hu]
        exact h u
    | disconnect k =>
      simp only [ConnEvent.apply, onDisconnect, getUserSockets]
      by_cases hu : u = k.userId
      · subst hu
        rw [unregister_get_self]
        have hold := h k.userId
        unfold getUserSockets at hold
        cases hg : s.onlineUsers.get k.userId with
        | none => simp
        | some old =>
          rw [hg] at hold
          simp only
          split
          · simp
          · exact List.Nodup.filter _ hold
      · rw [unregister_get_ne _ _ _ _ hu]
        exact h u

/-! ### Reachable states -/

theorem exampleServer_reachable : Reachable (fun id => id.length == 24) exampleServer :=
  ⟨exampleTrace, by decide, by decide⟩

theorem ownRoomLeftServer_reachable :
    Reachable (fun id => id.length == 24) ownRoomLeftServer :=
  ⟨ownRoomLeftTrace, by decide, by decide⟩

theorem handle_registry (isValidObjectId : String → Bool) (newId : String) (now : Nat)
    (s : Server) (socket : Socket) (ev : Inbound) :
    (handle isValidObjectId newId now s socket ev).1.onlineUsers = s.onlineUsers ∧
      (handle isValidObjectId newId now s socket ev).1.sockets = s.sockets := by
  cases ev with
  | joinConversation cid =>
    simp only [handle, joinConversation]
    split
    · exact ⟨rfl, rfl⟩
    · simp only [socketJoin]
      split <;> exact ⟨rfl, rfl⟩
  | leaveConversation cid => exact ⟨rfl, rfl⟩
  | sendMessage cid text =>
    simp only [handle, sendMessage]
    repeat' split
    all_goals exact ⟨rfl, rfl⟩
  | newMessageBroadcast message cid =>
    simp only [handle, newMessageBroadcast]
    repeat' split
    all_goals exact ⟨rfl, rfl⟩
  | messageEdited mid newText =>
    simp only [handle, messageEdited]
    repeat' split
    all_goals exact ⟨rfl, rfl⟩
  | messageDeleted mid deleteType =>
    simp only [handle, messageDeleted]
    repeat' split
    all_goals exact ⟨rfl, rfl⟩
  | messageReaction mid emoji =>
    simp only [handle, messageReaction]
    repeat' split
    all_goals exact ⟨rfl, rfl⟩
  | typingStarted cid =>
    simp only [handle, typingStarted]
    repeat' split
    all_goals exact ⟨rfl, rfl⟩
  | typingStopped cid =>
    simp only [handle, typingStopped]
    repeat' split
    all_goals exact ⟨rfl, rfl⟩
  | markMessagesSeen cid =>
    simp only [handle, markMessagesSeen]
    repeat' split
    all_goals exact ⟨rfl, rfl⟩

theorem handle_rooms (isValidObjectId : String → Bool) (newId : String) (now : Nat)
    (s : Server) (socket : Socket) (ev : Inbound) :
    ∀ r ∈ (handle isValidObjectId newId now s socket ev).1.rooms,
      r ∈ s.rooms ∨ isValidObjectId r.1 = true := by
  cases ev with
  | joinConversation cid =>
    simp only [handle, joinConversation, checkParticipationRaw]
    intro r hr
    by_cases hv : isValidObjectId cid = true
    · simp only [hv, if_true] at hr
      split at hr
      · exact Or.inl hr
      · simp only [socketJoin] at hr
        split at hr
        · exact Or.inl hr
        · rcases List.mem_append.1 hr with h | h
          · exact Or.inl h
          · rw [List.mem_singleton.1 h]; exact Or.inr hv
    · simp only [hv, Bool.false_eq_true, if_false] at hr
      exact Or.inl hr
  | leaveConversation cid =>
    intro r hr
    simp only [handle, leaveConversation, socketLeave] at hr
    exact Or.inl (List.mem_filter.1 hr).1
  | sendMessage cid text =>
    simp only [handle, sendMessage]
    repeat' split
    all_goals exact fun r hr => Or.inl hr
  | newMessageBroadcast message cid =>
    simp only [handle, newMessageBroadcast]
    repeat' split
    all_goals exact fun r hr => Or.inl hr
  | messageEdited mid newText =>
    simp only [handle, messageEdited]
    repeat' split
    all_goals exact fun r hr => Or.inl hr
  | messageDeleted mid deleteType =>
    simp only [handle, messageDeleted]
    repeat' split
    all_goals exact fun r hr => Or.inl hr
  | messageReaction mid emoji =>
    simp only [handle, messageReaction]
    repeat' split
    all_goals exact fun r hr => Or.inl hr
  | typingStarted cid =>
    simp only [handle, typingStarted]
    repeat' split
    all_goals exact fun r hr => Or.inl hr
  | typingStopped cid =>
    simp only [handle, typingStopped]
    repeat' split
    all_goals exact fun r hr => Or.inl hr
  | markMessagesSeen cid =>
    simp only [handle, markMessagesSeen]
    repeat' split
    all_goals exact fun r hr => Or.inl hr

theorem transportInv_init (isValidObjectId : String → Bool) :
    TransportInv isValidObjectId Server.init :=
  ⟨presenceInv_init, by intro u; simp [getUserSockets, Server.init, JsMap.get],
    by simp [Server.init], by simp [Server.init]⟩

theorem transportInv_apply (isValidObjectId : String → Bool) (s : Server) (e : ServerEvent)
    (hinv : TransportInv isValidObjectId s)
    (hposs : e.possible isValidObjectId s = true) :
    TransportInv isValidObjectId (e.apply isValidObjectId s) := by
  obtain ⟨hpres, hsets, hids, hnames⟩ := hinv
  cases e with
  | connection k =>
    simp only [ServerEvent.possible, Bool.and_eq_true, Bool.not_eq_true',
      List.any_eq_false] at hposs
    refine ⟨?_, ?_, ?_, ?_⟩
    · refine presenceInv_onConnection s k hpres ?_
      intro j hj
      simpa using hposs.1 j hj
    · exact registry_nodup_runConn [ConnEvent.connection k] s hsets
    · intro j hj
      simp only [ServerEvent.apply, onConnection] at hj
      rcases List.mem_append.1 hj with h | h
      · exact hids j h
      · rw [List.mem_singleton.1 h]; exact hposs.2
    · intro r hr
      simp only [ServerEvent.apply, onConnection] at hr
      rcases List.mem_append.1 hr with h | h
      · exact hnames r h
      · rw [List.mem_singleton.1 h]; exact Or.inl rfl
  | disconnect k =>
    have hopen : k ∈ s.sockets := by simpa [ServerEvent.possible] using hposs
    refine ⟨presenceInv_onDisconnect s k hpres hopen, ?_, ?_, ?_⟩
    · exact registry_nodup_runConn [ConnEvent.disconnect k] s hsets
    · intro j hj
      simp only [ServerEvent.apply, onDisconnect] at hj
      exact hids j (List.mem_filter.1 hj).1
    · intro r hr
      simp only [ServerEvent.apply, onDisconnect] at hr
      exact hnames r (List.mem_filter.1 hr).1
  | inbound k newId now ev =>
    obtain ⟨h1, h2⟩ := handle_registry isValidObjectId newId now s k ev
    refine ⟨hpres.of_eq h1 h2, ?_, ?_, ?_⟩
    · intro u
      simp only [ServerEvent.apply, getUserSockets, h1]
      exact hsets u
    · intro j hj
      simp only [ServerEvent.apply, h2] at hj
      exact hids j hj
    · intro r hr
      rcases handle_rooms isValidObjectId newId now s k ev r hr with h | h
      · exact hnames r h
      · exact Or.inr h
  | store messages conversations =>
    exact ⟨hpres.of_eq rfl rfl, hsets, hids, hnames⟩

theorem transportInv_runEvents (isValidObjectId : String → Bool) (evs : List ServerEvent) :
    ∀ s : Server, TransportInv isValidObjectId s →
      possibleRun isValidObjectId s evs = true →
      TransportInv isValidObjectId (runEvents isValidObjectId s evs) := by
  induction evs with
  | nil => intro s h _; exact h
  | cons e es ih =>
    intro s hinv hposs
    simp only [possibleRun, Bool.and_eq_true] at hposs
    exact ih _ (transportInv_apply isValidObjectId s e hinv hposs.1) hposs.2

/-- Every reachable state satisfies the transport invariant. -/
theorem transportInv_of_reachable (isValidObjectId : String → Bool) (s : Server)
    (h : Reachable isValidObjectId s) : TransportInv isValidObjectId s := by
  obtain ⟨evs, hposs, rfl⟩ := h
  exact transportInv_runEvents isValidObjectId evs Server.init
    (transportInv_init isValidObjectId) hposs

/-- In a state satisfying the transport invariant, the room named by the id of
an open socket holds no other open socket. -/
theorem TransportInv.room_exclusive {isValidObjectId : String → Bool} {s : Server}
    (hinv : TransportInv isValidObjectId s) (j k : Socket) (hk : k ∈ s.sockets)
    (hroom : s.inRoom k.id j.id = true) : j.id = k.id := by
  have hmem : (k.id, j.id) ∈ s.rooms := by simpa [Server.inRoom] using hroom
  rcases hinv.room_names _ hmem with h | h
  · exact h.symm
  · have := hinv.socket_ids k hk
    simp only at h
    rw [this] at h
    exact absurd h (by decide)

/-- In a state satisfying the transport invariant, an `emit` to the room named
by a registered connection id reaches that connection when it is still in the
room named by its own id, and nobody otherwise. -/
theorem mem_deliver_own_room {isValidObjectId : String → Bool} {s : Server}
    (hinv : TransportInv isValidObjectId s) (origin u sid : String) (ev : Event)
    (hsid : sid ∈ getUserSockets s u) (r : String × Event) :
    r ∈ deliver s origin ⟨Target.room sid, ev⟩ ↔
      s.inRoom sid sid = true ∧ r = (sid, ev) := by
  have hk : (⟨sid, u⟩ : Socket) ∈ s.sockets :=
    (hinv.presence.mem_getUserSockets u sid).1 hsid
  rw [mem_deliver_room]
  constructor
  · rintro ⟨j, _, hroom, rfl⟩
    have hid : j.id = sid := hinv.room_exclusive j ⟨sid, u⟩ hk hroom
    rw [hid] at hroom ⊢
    exact ⟨hroom, rfl⟩
  · rintro ⟨hroom, rfl⟩
    exact ⟨⟨sid, u⟩, hk, hroom, rfl⟩

/-! ### Typing fan-out in reachable states -/

theorem mem_deliverAll_others_own_room {isValidObjectId : String → Bool} {s : Server}
    (hinv : TransportInv isValidObjectId s) (origin : String) (conv : Conversation)
    (uid : String) (ev : Event) (r : String × Event) :
    r ∈ deliverAll s origin (emitToOtherParticipants s conv uid ev) ↔
      ∃ p ∈ conv.participants, p ≠ uid ∧
        ∃ sid ∈ getUserSockets s p, s.inRoom sid sid = true ∧ r = (sid, ev) := by
  rw [mem_deliverAll]
  unfold emitToOtherParticipants
  constructor
  · rintro ⟨e, he, hr⟩
    obtain ⟨p, hp, hep⟩ := List.mem_flatMap.1 he
    by_cases hpu : p = uid
    · simp [hpu] at hep
    · have hne : (p != uid) = true := by simpa using hpu
      simp only [hne, if_true] at hep
      obtain ⟨sid, hsid, rfl⟩ := List.mem_map.1 hep
      obtain ⟨hroom, hreq⟩ := (mem_deliver_own_room hinv _ _ _ _ hsid _).1 hr
      exact ⟨p, hp, hpu, sid, hsid, hroom, hreq⟩
  · rintro ⟨p, hp, hpu, sid, hsid, hroom, rfl⟩
    have hne : (p != uid) = true := by simpa using hpu
    refine ⟨⟨Target.room sid, ev⟩, List.mem_flatMap.2 ⟨p, hp, ?_⟩, ?_⟩
    · simp only [hne, if_true]
      exact List.mem_map.2 ⟨sid, hsid, rfl⟩
    · exact (mem_deliver_own_room hinv _ _ _ _ hsid _).2 ⟨hroom, rfl⟩

/-- C9 as stated fails: in a reachable state where the connection `b1` of bob
has sent leave-conversation with its own socket id, `b1` is still in the
registry entry of bob, a participant other than the requester, yet the
typing-started event of alice reaches no connection at all. -/
theorem typing_not_received_after_own_room_left :
    Reachable (fun id => id.length == 24) ownRoomLeftServer ∧
      Conversation.findById ownRoomLeftServer "65f0000000000000000000c1" =
        some ⟨"65f0000000000000000000c1", ["alice", "bob"], none⟩ ∧
      "b1" ∈ getUserSockets ownRoomLeftServer "bob" ∧
      deliverAll ownRoomLeftServer "a1"
        (typingStarted (fun id => id.length == 24) ownRoomLeftServer ⟨"a1", "alice"⟩
          "65f0000000000000000000c1").2 = [] :=
  ⟨ownRoomLeftServer_reachable, by decide, by decide, by decide⟩

/-- C9, amended. Typing fan-out: in every reachable state, for every
typing-started or typing-stopped event with a well-formed conversationId from a
participant `r`, nothing is written to the store and the connections that
receive `user-typing` / `user-stopped-typing` are exactly the registered
connections of the participants other than `r` that are still in the room
named by their own socket id; no connection of `r` receives anything. -/
theorem typing_fan_out (isValidObjectId : String → Bool) (s : Server) (socket : Socket)
    (cid : String) (conv : Conversation)
    (hreach : Reachable isValidObjectId s)
    (hvalid : isValidObjectId cid = true)
    (hconv : Conversation.findById s cid = some conv)
    (hmem : socket.userId ∈ conv.participants) :
    (typingStarted isValidObjectId s socket cid).1 = s ∧
      (typingStopped isValidObjectId s socket cid).1 = s ∧
      (∀ r, r ∈ deliverAll s socket.id (typingStarted isValidObjectId s socket cid).2 ↔
        ∃ p ∈ conv.participants, p ≠ socket.userId ∧
          ∃ sid ∈ getUserSockets s p, s.inRoom sid sid = true ∧
            r = (sid, Event.userTyping socket.userId cid)) ∧
      (∀ r, r ∈ deliverAll s socket.id (typingStopped isValidObjectId s socket cid).2 ↔
        ∃ p ∈ conv.participants, p ≠ socket.userId ∧
          ∃ sid ∈ getUserSockets s p, s.inRoom sid sid = true ∧
            r = (sid, Event.userStoppedTyping socket.userId cid)) ∧
      ∀ k ∈ s.sockets, k.userId = socket.userId →
        ∀ r ∈ deliverAll s socket.id (typingStarted isValidObjectId s socket cid).2 ++
            deliverAll s socket.id (typingStopped isValidObjectId s socket cid).2,
          r.1 ≠ k.id := by
  have hinv := transportInv_of_reachable isValidObjectId s hreach
  have hcheck := checkParticipation_of_mem s _ _ conv hconv hmem
  have hstart : typingStarted isValidObjectId s socket cid =
      (s, emitToOtherParticipants s conv socket.userId
        (Event.userTyping socket.userId cid)) := by
    simp [typingStarted, hvalid, hcheck]
  have hstop : typingStopped isValidObjectId s socket cid =
      (s, emitToOtherParticipants s conv socket.userId
        (Event.userStoppedTyping socket.userId cid)) := by
    simp [typingStopped, hvalid, hcheck]
  have hnone : ∀ (ev : Event) (k : Socket), k ∈ s.sockets → k.userId = socket.userId →
      ∀ r ∈ deliverAll s socket.id (emitToOtherParticipants s conv socket.userId ev),
        r.1 ≠ k.id := by
    intro ev k hk hku r hr hrk
    obtain ⟨p, _, hpu, sid, hsid, _, rfl⟩ :=
      (mem_deliverAll_others_own_room hinv _ _ _ _ _).1 hr
    have hp : (⟨sid, p⟩ : Socket) ∈ s.sockets :=
      (hinv.presence.mem_getUserSockets p sid).1 hsid
    have heq : (⟨sid, p⟩ : Socket) = k :=
      socket_eq_of_id_eq hinv.presence.ids_nodup hp hk hrk
    apply hpu
    rw [← hku, ← heq]
  rw [hstart, hstop]
  refine ⟨rfl, rfl, ?_, ?_, ?_⟩
  · intro r
    exact mem_deliverAll_others_own_room hinv _ _ _ _ _
  · intro r
    exact mem_deliverAll_others_own_room hinv _ _ _ _ _
  · intro k hk hku r hr
    rcases List.mem_append.1 hr with h | h
    · exact hnone _ k hk hku r h
    · exact hnone _ k hk hku r h

/-- C9 amended, witness: alice starts typing on `a1` in the example state;
nothing is stored, `b1` receives `user-typing`, her other device `a2` gets
nothing. -/
theorem typing_fan_out_witness :
    (typingStarted (fun id => id.length == 24) exampleServer ⟨"a1", "alice"⟩
        "65f0000000000000000000c1").1 = exampleServer ∧
      ("b1", Event.userTyping "alice" "65f0000000000000000000c1") ∈
        deliverAll exampleServer "a1"
          (typingStarted (fun id => id.length == 24) exampleServer ⟨"a1", "alice"⟩
            "65f0000000000000000000c1").2 ∧
      ∀ r ∈ deliverAll exampleServer "a1"
            (typingStarted (fun id => id.length == 24) exampleServer ⟨"a1", "alice"⟩
              "65f0000000000000000000c1").2 ++
          deliverAll exampleServer "a1"
            (typingStopped (fun id => id.length == 24) exampleServer ⟨"a1", "alice"⟩
              "65f0000000000000000000c1").2,
        r.1 ≠ "a2" :=
  ⟨(typing_fan_out (fun id => id.length == 24) exampleServer ⟨"a1", "alice"⟩
      "65f0000000000000000000c1" ⟨"65f0000000000000000000c1", ["alice", "bob"], none⟩
      exampleServer_reachable (by decide) (by decide) (by decide)).1,
    ((typing_fan_out (fun id => id.length == 24) exampleServer ⟨"a1", "alice"⟩
      "65f0000000000000000000c1" ⟨"65f0000000000000000000c1", ["alice", "bob"], none⟩
      exampleServer_reachable (by decide) (by decide) (by decide)).2.2.1 _).2
      ⟨"bob", by decide, by decide, "b1", by decide, by decide, rfl⟩,
    (typing_fan_out (fun id => id.length == 24) exampleServer ⟨"a1", "alice"⟩
      "65f0000000000000000000c1" ⟨"65f0000000000000000000c1", ["alice", "bob"], none⟩
      exampleServer_reachable (by decide) (by decide) (by decide)).2.2.2.2
      ⟨"a2", "alice"⟩ (by decide) rfl⟩

/-! ### Send delivery in reachable states -/

/-- The transport state after a successful send is the one before it. -/
theorem transportInv_after_send {isValidObjectId : String → Bool} {s : Server}
    (hinv : TransportInv isValidObjectId s) (newId : String) (now : Nat)
    (sender cid text : String) (conv : Conversation) :
    TransportInv isValidObjectId
      (Conversation.saveLastMessage (Message.create s newId now sender cid text).1 conv
        newId) :=
  ⟨hinv.presence.of_eq rfl rfl, hinv.sets_nodup, hinv.socket_ids, hinv.room_names⟩

/-- C7, amended. In every reachable state, when the sender is a participant of
the conversation and sends a non-blank text, a Message is persisted with the
sender as `sender`, the trimmed text and empty `seenBy`; the connections that
receive `new-message` carrying that message are exactly the open connections
that have joined the room of the conversation and the open connections of the
sender that are still in the room named by their own socket id. (A connection
of the other participant receives it only when it has joined the room.) -/
theorem send_scenario (isValidObjectId : String → Bool) (newId : String) (now : Nat)
    (s : Server) (socket : Socket) (cid text : String) (conv : Conversation)
    (hreach : Reachable isValidObjectId s)
    (hcid : cid ≠ "") (htext : jsTrim text ≠ "") (hvalid : isValidObjectId cid = true)
    (hconv : Conversation.findById s cid = some conv)
    (hmem : socket.userId ∈ conv.participants) :
    (sendMessage isValidObjectId newId now s socket (some cid) (some text)).1.messages =
        s.messages ++ [⟨newId, socket.userId, cid, jsTrim text, false, none, [], [], now⟩] ∧
      ∀ r, r ∈ deliverAll
            (sendMessage isValidObjectId newId now s socket (some cid) (some text)).1 socket.id
            (sendMessage isValidObjectId newId now s socket (some cid) (some text)).2 ↔
          ∃ k ∈ s.sockets,
            (s.inRoom cid k.id = true ∨
              (k.userId = socket.userId ∧ s.inRoom k.id k.id = true)) ∧
            r = (k.id, Event.newMessage (MessagePayload.stored
              ⟨newId, socket.userId, cid, jsTrim text, false, none, [], [], now⟩) cid) := by
  have hinv := transportInv_of_reachable isValidObjectId s hreach
  have hinv2 := transportInv_after_send hinv newId now socket.userId cid (jsTrim text) conv
  rw [sendMessage_ok isValidObjectId newId now s socket cid text conv hcid htext hvalid hconv
    hmem]
  refine ⟨rfl, fun r => ?_⟩
  generalize hs2 : Conversation.saveLastMessage
    (Message.create s newId now socket.userId cid (jsTrim text)).1 conv newId = s2 at hinv2
  have hsock : s2.sockets = s.sockets := by rw [← hs2]; rfl
  have hroomEq : ∀ a b, s2.inRoom a b = s.inRoom a b := by intro a b; rw [← hs2]; rfl
  have hget : getUserSockets s socket.userId = getUserSockets s2 socket.userId := by
    rw [← hs2]; rfl
  simp only
  rw [mem_deliverAll]
  constructor
  · rintro ⟨e, he, hr⟩
    rcases List.mem_cons.1 he with rfl | he
    · obtain ⟨k, hk, hroom, rfl⟩ := (mem_deliver_room _ _ _ _ _).1 hr
      rw [hsock] at hk
      rw [hroomEq] at hroom
      exact ⟨k, hk, Or.inl hroom, rfl⟩
    · obtain ⟨sid, hsid, rfl⟩ := List.mem_map.1 he
      rw [hget] at hsid
      obtain ⟨hroom, hreq⟩ := (mem_deliver_own_room hinv2 _ _ _ _ hsid _).1 hr
      have hk := (hinv2.presence.mem_getUserSockets _ _).1 hsid
      rw [hsock] at hk
      rw [hroomEq] at hroom
      exact ⟨⟨sid, socket.userId⟩, hk, Or.inr ⟨rfl, hroom⟩, hreq⟩
  · rintro ⟨k, hk, hor, rfl⟩
    rcases hor with hroom | ⟨huser, hroom⟩
    · refine ⟨_, List.mem_cons_self _ _, ?_⟩
      rw [mem_deliver_room]
      exact ⟨k, by rw [hsock]; exact hk, by rw [hroomEq]; exact hroom, rfl⟩
    · have hsid : k.id ∈ getUserSockets s socket.userId := by
        rw [hinv.presence.mem_getUserSockets, ← huser]
        exact hk
      refine ⟨⟨Target.room k.id, _⟩, List.mem_cons_of_mem _ (List.mem_map.2 ⟨k.id, hsid, rfl⟩),
        ?_⟩
      rw [hget] at hsid
      exact (mem_deliver_own_room hinv2 _ _ _ _ hsid _).2 ⟨by rw [hroomEq]; exact hroom, rfl⟩

/-- C7 amended, witness: alice sends "hi" from `a1` in the example state; the
message is persisted and her other device `a2`, which has not joined the room,
receives it. -/
theorem send_scenario_witness :
    (sendMessage (fun id => id.length == 24) "65f0000000000000000000a1" 1 exampleServer
        ⟨"a1", "alice"⟩ (some "65f0000000000000000000c1") (some "hi")).1.messages =
        exampleServer.messages ++
          [⟨"65f0000000000000000000a1", "alice", "65f0000000000000000000c1", jsTrim "hi",
            false, none, [], [], 1⟩] ∧
      ("a2", Event.newMessage (MessagePayload.stored
          ⟨"65f0000000000000000000a1", "alice", "65f0000000000000000000c1", jsTrim "hi",
            false, none, [], [], 1⟩) "65f0000000000000000000c1") ∈
        deliverAll
          (sendMessage (fun id => id.length == 24) "65f0000000000000000000a1" 1
            exampleServer ⟨"a1", "alice"⟩ (some "65f0000000000000000000c1") (some "hi")).1
          "a1"
          (sendMessage (fun id => id.length == 24) "65f0000000000000000000a1" 1
            exampleServer ⟨"a1", "alice"⟩ (some "65f0000000000000000000c1") (some "hi")).2 :=
  ⟨(send_scenario (fun id => id.length == 24) "65f0000000000000000000a1" 1 exampleServer
      ⟨"a1", "alice"⟩ "65f0000000000000000000c1" "hi"
      ⟨"65f0000000000000000000c1", ["alice", "bob"], none⟩
      exampleServer_reachable (by decide) (by decide) (by decide) (by decide) (by decide)).1,
    ((send_scenario (fun id => id.length == 24) "65f0000000000000000000a1" 1 exampleServer
      ⟨"a1", "alice"⟩ "65f0000000000000000000c1" "hi"
      ⟨"65f0000000000000000000c1", ["alice", "bob"], none⟩
      exampleServer_reachable (by decide) (by decide) (by decide) (by decide) (by decide)).2
      _).2 ⟨⟨"a2", "alice"⟩, by decide, Or.inr ⟨rfl, by decide⟩, rfl⟩⟩

/-! ### Send delivery multiplicity in reachable states -/

theorem count_deliverAll_own_room {isValidObjectId : String → Bool} {s : Server}
    (hinv : TransportInv isValidObjectId s) (origin u : String) (ev : Event) (k : Socket)
    (hk : k ∈ s.sockets) (set : List String) (hset : ∀ sid ∈ set, sid ∈ getUserSockets s u) :
    (deliverAll s origin (set.map (fun sid => ⟨Target.room sid, ev⟩))).count (k.id, ev) =
      if s.inRoom k.id k.id = true then set.count k.id else 0 := by
  induction set with
  | nil => simp [deliverAll]
  | cons sid set ih =>
    have hsid : (⟨sid, u⟩ : Socket) ∈ s.sockets :=
      (hinv.presence.mem_getUserSockets u sid).1 (hset sid (List.mem_cons_self _ _))
    have hexcl : s.inRoom sid k.id = true → k.id = sid :=
      hinv.room_exclusive k ⟨sid, u⟩ hsid
    have hhead := count_deliver_room s hinv.presence.ids_nodup origin sid ev k hk
    have htail := ih (fun x hx => hset x (List.mem_cons_of_mem _ hx))
    simp only [deliverAll, List.map_cons, List.flatMap_cons, List.count_append] at htail ⊢
    rw [hhead, htail, List.count_cons]
    by_cases hc : k.id = sid
    · rw [← hc]
      by_cases hown : s.inRoom k.id k.id = true
      · simp [hown, Nat.add_comm]
      · simp [hown]
    · have h1 : s.inRoom sid k.id = false := by
        cases h : s.inRoom sid k.id with
        | false => rfl
        | true => exact absurd (hexcl h) hc
      have h2 : (sid == k.id) = false := by simpa using fun h => hc h.symm
      simp [h1, h2]

/-- C13 as stated fails: in the reachable state where the connection `a2` of
alice has sent leave-conversation with its own socket id, alice sends "hi" from
`a1`; `a2` is still in her registry entry, yet it receives `new-message` zero
times. -/
theorem send_not_received_after_own_room_left :
    Reachable (fun id => id.length == 24) ownRoomLeftServer ∧
      "a2" ∈ getUserSockets ownRoomLeftServer "alice" ∧
      (deliverAll (sendMessage (fun id => id.length == 24) "65f0000000000000000000a1" 1
          ownRoomLeftServer ⟨"a1", "alice"⟩ (some "65f0000000000000000000c1")
          (some "hi")).1 "a1"
        (sendMessage (fun id => id.length == 24) "65f0000000000000000000a1" 1
          ownRoomLeftServer ⟨"a1", "alice"⟩ (some "65f0000000000000000000c1")
          (some "hi")).2).count
        ("a2", Event.newMessage (MessagePayload.stored
          ⟨"65f0000000000000000000a1", "alice", "65f0000000000000000000c1", "hi",
            false, none, [], [], 1⟩) "65f0000000000000000000c1") = 0 :=
  ⟨ownRoomLeftServer_reachable, by decide, by decide⟩

/-- C13, amended. Send delivery multiplicity: in every reachable state, a
successful send-message emits once to the room of the conversation and then
once to every connection in the registry entry of the sender, the originating
connection included; an open connection receives the `new-message` event once
if it has joined the room of the conversation, plus once if it belongs to the
sender and is still in the room named by its own socket id. So a sender
connection that is in both rooms gets it exactly twice, one that is only in its
own room exactly once, and a non-sender connection exactly once if it has
joined the room of the conversation and not at all otherwise. -/
theorem send_delivery_multiplicity (isValidObjectId : String → Bool) (newId : String)
    (now : Nat) (s : Server) (socket : Socket) (cid text : String) (conv : Conversation)
    (hreach : Reachable isValidObjectId s) (hopen : socket ∈ s.sockets)
    (hcid : cid ≠ "") (htext : jsTrim text ≠ "") (hvalid : isValidObjectId cid = true)
    (hconv : Conversation.findById s cid = some conv)
    (hmem : socket.userId ∈ conv.participants) :
    (sendMessage isValidObjectId newId now s socket (some cid) (some text)).2 =
        ⟨Target.room cid, Event.newMessage (MessagePayload.stored
            ⟨newId, socket.userId, cid, jsTrim text, false, none, [], [], now⟩) cid⟩ ::
          (getUserSockets s socket.userId).map (fun socketId =>
            ⟨Target.room socketId, Event.newMessage (MessagePayload.stored
              ⟨newId, socket.userId, cid, jsTrim text, false, none, [], [], now⟩) cid⟩) ∧
      socket.id ∈ getUserSockets s socket.userId ∧
      ∀ k ∈ s.sockets,
        (deliverAll (sendMessage isValidObjectId newId now s socket (some cid) (some text)).1
            socket.id
            (sendMessage isValidObjectId newId now s socket (some cid) (some text)).2).count
          (k.id, Event.newMessage (MessagePayload.stored
            ⟨newId, socket.userId, cid, jsTrim text, false, none, [], [], now⟩) cid) =
          (if s.inRoom cid k.id = true then 1 else 0) +
            (if k.userId = socket.userId ∧ s.inRoom k.id k.id = true then 1 else 0) := by
  have hinv := transportInv_of_reachable isValidObjectId s hreach
  have hinv2 := transportInv_after_send hinv newId now socket.userId cid (jsTrim text) conv
  rw [sendMessage_ok isValidObjectId newId now s socket cid text conv hcid htext hvalid hconv
    hmem]
  refine ⟨rfl, (hinv.presence.mem_getUserSockets _ _).2 hopen, fun k hk => ?_⟩
  generalize hs2 : Conversation.saveLastMessage
    (Message.create s newId now socket.userId cid (jsTrim text)).1 conv newId = s2 at hinv2
  have hsock : s2.sockets = s.sockets := by rw [← hs2]; rfl
  have hroomEq : ∀ a b, s2.inRoom a b = s.inRoom a b := by intro a b; rw [← hs2]; rfl
  have hget : getUserSockets s socket.userId = getUserSockets s2 socket.userId := by
    rw [← hs2]; rfl
  have hk2 : k ∈ s2.sockets := by rw [hsock]; exact hk
  have hhead := count_deliver_room s2 hinv2.presence.ids_nodup socket.id cid
    (Event.newMessage (MessagePayload.stored
      ⟨newId, socket.userId, cid, jsTrim text, false, none, [], [], now⟩) cid) k hk2
  have htail := count_deliverAll_own_room hinv2 socket.id socket.userId
    (Event.newMessage (MessagePayload.stored
      ⟨newId, socket.userId, cid, jsTrim text, false, none, [], [], now⟩) cid) k hk2
    (getUserSockets s socket.userId) (fun sid hsid => hget ▸ hsid)
  have hcount : (getUserSockets s socket.userId).count k.id =
      if k.userId = socket.userId then 1 else 0 := by
    by_cases hu : k.userId = socket.userId
    · have : k.id ∈ getUserSockets s socket.userId := by
        rw [hinv.presence.mem_getUserSockets, ← hu]; exact hk
      rw [List.count_eq_one_of_mem (hinv.sets_nodup _) this]
      simp [hu]
    · have : k.id ∉ getUserSockets s socket.userId := by
        intro hmem1
        have h1 := (hinv.presence.mem_getUserSockets _ _).1 hmem1
        have heq : k = (⟨k.id, socket.userId⟩ : Socket) :=
          socket_eq_of_id_eq hinv.presence.ids_nodup hk h1 rfl
        have h3 : k.userId = (⟨k.id, socket.userId⟩ : Socket).userId :=
          congrArg Socket.userId heq
        exact hu h3
      rw [List.count_eq_zero_of_not_mem this]
      simp [hu]
  simp only at htail hhead ⊢
  simp only [deliverAll, List.flatMap_cons, List.count_append] at htail ⊢
  rw [hhead, htail, hcount, hroomEq, hroomEq]
  by_cases hu : k.userId = socket.userId <;> by_cases hown : s.inRoom k.id k.id = true <;>
    simp [hu, hown]

/-- C13 amended, witness: alice sends "hi" from `a1`, which has joined the
room; `a1` receives the event twice, her other device `a2` once, and `b1`,
which has not joined the room, not at all. -/
theorem send_delivery_multiplicity_witness :
    (deliverAll (sendMessage (fun id => id.length == 24) "65f0000000000000000000a1" 1
          exampleServer ⟨"a1", "alice"⟩ (some "65f0000000000000000000c1") (some "hi")).1 "a1"
        (sendMessage (fun id => id.length == 24) "65f0000000000000000000a1" 1
          exampleServer ⟨"a1", "alice"⟩ (some "65f0000000000000000000c1") (some "hi")).2).count
        ("a1", Event.newMessage (MessagePayload.stored
          ⟨"65f0000000000000000000a1", "alice", "65f0000000000000000000c1", jsTrim "hi",
            false, none, [], [], 1⟩) "65f0000000000000000000c1") = 2 ∧
      (deliverAll (sendMessage (fun id => id.length == 24) "65f0000000000000000000a1" 1
          exampleServer ⟨"a1", "alice"⟩ (some "65f0000000000000000000c1") (some "hi")).1 "a1"
        (sendMessage (fun id => id.length == 24) "65f0000000000000000000a1" 1
          exampleServer ⟨"a1", "alice"⟩ (some "65f0000000000000000000c1") (some "hi")).2).count
        ("a2", Event.newMessage (MessagePayload.stored
          ⟨"65f0000000000000000000a1", "alice", "65f0000000000000000000c1", jsTrim "hi",
            false, none, [], [], 1⟩) "65f0000000000000000000c1") = 1 ∧
      (deliverAll (sendMessage (fun id => id.length == 24) "65f0000000000000000000a1" 1
          exampleServer ⟨"a1", "alice"⟩ (some "65f0000000000000000000c1") (some "hi")).1 "a1"
        (sendMessage (fun id => id.length == 24) "65f0000000000000000000a1" 1
          exampleServer ⟨"a1", "alice"⟩ (some "65f0000000000000000000c1") (some "hi")).2).count
        ("b1", Event.newMessage (MessagePayload.stored
          ⟨"65f0000000000000000000a1", "alice", "65f0000000000000000000c1", jsTrim "hi",
            false, none, [], [], 1⟩) "65f0000000000000000000c1") = 0 :=
  ⟨((send_delivery_multiplicity (fun id => id.length == 24) "65f0000000000000000000a1" 1
      exampleServer ⟨"a1", "alice"⟩ "65f0000000000000000000c1" "hi"
      ⟨"65f0000000000000000000c1", ["alice", "bob"], none⟩
      exampleServer_reachable (by decide) (by decide) (by decide) (by decide) (by decide)
      (by decide)).2.2 ⟨"a1", "alice"⟩ (by decide)).trans (by decide),
    ((send_delivery_multiplicity (fun id => id.length == 24) "65f0000000000000000000a1" 1
      exampleServer ⟨"a1", "alice"⟩ "65f0000000000000000000c1" "hi"
      ⟨"65f0000000000000000000c1", ["alice", "bob"], none⟩
      exampleServer_reachable (by decide) (by decide) (by decide) (by decide) (by decide)
      (by decide)).2.2 ⟨"a2", "alice"⟩ (by decide)).trans (by decide),
    ((send_delivery_multiplicity (fun id => id.length == 24) "65f0000000000000000000a1" 1
      exampleServer ⟨"a1", "alice"⟩ "65f0000000000000000000c1" "hi"
      ⟨"65f0000000000000000000c1", ["alice", "bob"], none⟩
      exampleServer_reachable (by decide) (by decide) (by decide) (by decide) (by decide)
      (by decide)).2.2 ⟨"b1", "bob"⟩ (by decide)).trans (by decide)⟩

end WaClone
